import Mathlib

/-
Verification of the ESP32 IT8951 photo-frame storage job engine and image
selection algorithm against its natural-language specification.

The definitions below are a shallow embedding of
  src/app/sd_storage_service.cpp   (job table, queue, worker, upload, sync),
  src/app/image_render_service.cpp (selection / rotation / expiry pruning),
  src/app/rtc_state.cpp            (persisted selection state),
  src/app/time_utils.cpp           (timestamp parsing).

Modelling conventions:
 * Arduino `String` values are Lean `String`s; the byte-wise `compareTo` /
   `strcmp` order of the C code is embedded as an explicit lexicographic
   comparison on the character list (`lexLt`), and names are treated
   character-wise (the firmware only ever handles ASCII file names).
 * The SD card volume is an association list of (path, content) pairs;
   mount/enumerate never fail in the model (their failure paths are noted
   where relevant).  Directory existence/creation for uploads is an oracle.
 * `millis()` timestamps are `Nat`s; the `uint32_t` wrap-around subtraction
   of the C code is `u32sub`.  `time_t` values are `Int`.
 * External collaborators (WiFi session, Azure blob client, IT8951 renderer,
   SD driver write results) are oracle fields of environment structures.
-/

/-- Character-list lexicographic strict order: the byte order computed by
Arduino `String::compareTo` (i.e. `strcmp`) on the stored names. -/
def lexLt : List Char → List Char → Bool
  | [], [] => false
  | [], _ :: _ => true
  | _ :: _, [] => false
  | a :: as, b :: bs => if a < b then true else if b < a then false else lexLt as bs

/-- Strict order on names: `a.compareTo(b) < 0` of the sort comparators. -/
def strLt (a b : String) : Bool := lexLt a.data b.data

/-- Non-strict order on names (negation of the reversed strict order). -/
def strLe (a b : String) : Bool := !(lexLt b.data a.data)

/-- The sorted-output relation of `sort_names`. -/
def strLeRel (a b : String) : Prop := strLe a b = true

instance : DecidableRel strLeRel :=
  fun a b => inferInstanceAs (Decidable (strLe a b = true))

/-- `sort_names` of both services: `std::sort` with the `compareTo < 0`
comparator.  Any comparison sort agrees with `std::sort` here because the
order is total and antisymmetric, so the sorted permutation is unique. -/
def sort_names (names : List String) : List String :=
  List.insertionSort strLeRel names

/-- `strncmp(name, prefix, strlen(prefix)) == 0` (`has_prefix` in
sd_storage_service.cpp, and Arduino `String::startsWith`). -/
def has_pfx (cs pfx : List Char) : Bool := cs.take pfx.length == pfx

/-- Whether `pat` occurs in `s` starting exactly at index `i`. -/
def sub_at (s pat : List Char) (i : Nat) : Bool := (s.drop i).take pat.length == pat

/-- First index `≥ start` at which `pat` occurs in `s`
(Arduino `String::indexOf(pat, start)`; `none` models the -1 result). -/
def find_sub_from (s pat : List Char) (start : Nat) : Option Nat :=
  ((List.range s.length).filter (fun i => start ≤ i)).find? (fun i => sub_at s pat i)

/-- Arduino `String::endsWith` / the C `strcmp(name + (len-3), ".g4")`
suffix checks. -/
def ends_with_str (s sfx : String) : Bool :=
  decide (sfx.data.length ≤ s.data.length) &&
    (s.data.drop (s.data.length - sfx.data.length) == sfx.data)

/-- `std::binary_search` over a list of names with the `compareTo < 0`
comparator, fuelled by the list length (each step strictly shrinks the
range, so the fuel suffices). -/
def binSearchAux : Nat → List String → String → Bool
  | 0, _, _ => false
  | fuel + 1, l, q =>
    if l.isEmpty then false
    else
      let m := l.length / 2
      let pivot := l.getD m ""
      if strLt pivot q then binSearchAux fuel (l.drop (m + 1)) q
      else if strLt q pivot then binSearchAux fuel (l.take m) q
      else true

/-- `std::binary_search(queue_names.begin(), queue_names.end(), name, cmp)`. -/
def binSearch (l : List String) (q : String) : Bool := binSearchAux l.length l q

/- ===== time_utils.cpp ===== -/

/-- `kValidTimeThreshold` = 2021-01-01T00:00:00Z. -/
def kValidTimeThreshold : Int := 1609459200

/-- `time_utils::is_time_valid()` with the current `time(nullptr)` value
passed explicitly. -/
def is_time_valid (now : Int) : Bool := decide (kValidTimeThreshold ≤ now)

/-- Days since 1970-01-01 of a civil date (proleptic Gregorian); the
day-count computation performed by `mktime` under `TZ=UTC0`.  `d` may be
out of range and contributes linearly, exactly as `mktime` normalises it. -/
def days_from_civil (y m d : Int) : Int :=
  let y1 := y - (if m ≤ 2 then 1 else 0)
  let era := (if 0 ≤ y1 then y1 else y1 - 399) / 400
  let yoe := y1 - era * 400
  let mp := (m + 9).emod 12
  let doy := (153 * mp + 2) / 5 + d - 1
  let doe := yoe * 365 + yoe / 4 - yoe / 100 + doy
  era * 146097 + doe - 719468

/-- `time_utils::timegm_portable`: `mktime` with `TZ=UTC0`.  An
out-of-range month is normalised into the year (floor division, as newlib
does); day, hour, minute and second contribute linearly. -/
def timegm_portable (year mon day hour minute sec : Int) : Int :=
  let mon0 := mon - 1
  let y := year + mon0.fdiv 12
  let m := mon0.emod 12 + 1
  days_from_civil y m day * 86400 + hour * 3600 + minute * 60 + sec

/-- Digit value of a character, as the C `ts[i] - '0'`. -/
def digit_val (c : Char) : Int := (c.toNat : Int) - ('0'.toNat : Int)

/-- Format validation of `parse_utc_timestamp`: 16 characters
`YYYYMMDDTHHMMSSZ`, with `T` at index 8, `Z` at index 15, digits elsewhere. -/
def ts_format_ok (ts : List Char) : Bool :=
  decide (ts.length = 16) &&
    (List.range 16).all fun i =>
      let c := ts.getD i ' '
      if i = 8 then c == 'T'
      else if i = 15 then c == 'Z'
      else decide ('0' ≤ c) && decide (c ≤ '9')

/-- `time_utils::parse_utc_timestamp` (identical code also sits in
image_render_service.cpp): parse `YYYYMMDDTHHMMSSZ`, convert with
`timegm_portable`, reject non-positive epochs. -/
def parse_utc_timestamp (ts : List Char) : Option Int :=
  if ts_format_ok ts then
    let dv := fun i => digit_val (ts.getD i '0')
    let year := dv 0 * 1000 + dv 1 * 100 + dv 2 * 10 + dv 3
    let mon := dv 4 * 10 + dv 5
    let day := dv 6 * 10 + dv 7
    let hour := dv 9 * 10 + dv 10
    let minute := dv 11 * 10 + dv 12
    let sec := dv 13 * 10 + dv 14
    let epoch := timegm_portable year mon day hour minute sec
    if epoch ≤ 0 then none else some epoch
  else none

/-- `parse_temp_expiry` of image_render_service.cpp: names under `temp/`
carry their expiry as `temp/<timestamp>__...`. -/
def parse_temp_expiry (name : String) : Option Int :=
  let cs := name.data
  if has_pfx cs "temp/".data then
    match find_sub_from cs "__".data 5 with
    | none => none
    | some sep => parse_utc_timestamp ((cs.drop 5).take (sep - 5))
  else none

/-- `parse_all_temp_expiry` of sd_storage_service.cpp: blobs under
`all/temporary/` carry their expiry as `all/temporary/<timestamp>__...`. -/
def parse_all_temp_expiry (name : String) : Option Int :=
  let cs := name.data
  if has_pfx cs "all/temporary/".data then
    match find_sub_from cs "__".data 14 with
    | none => none
    | some sep => parse_utc_timestamp ((cs.drop 14).take (sep - 14))
  else none

/- ===== The SD volume ===== -/

/-- The SD card volume: an association list of (absolute path, content). -/
abbrev Fs := List (String × List Nat)

/-- Content stored at a path. -/
def fsGet : Fs → String → Option (List Nat)
  | [], _ => none
  | e :: rest, p => if e.1 = p then some e.2 else fsGet rest p

/-- `SD.remove(path)`. -/
def fsRemove : Fs → String → Fs
  | [], _ => []
  | e :: rest, p => if e.1 = p then fsRemove rest p else e :: fsRemove rest p

/-- Create / overwrite the file at a path (`SD.open(p, FILE_WRITE)` +
write, or the effect of `SD.rename` at its destination). -/
def fsInsert (fs : Fs) (p : String) (c : List Nat) : Fs := fsRemove fs p ++ [(p, c)]

/-- `SD.exists(path)` for files. -/
def fsExists (fs : Fs) (p : String) : Bool := (fsGet fs p).isSome

/-- Basename of `p` when `p` is a file directly inside directory `dir`
(what `file.name()` yields while `openNextFile`-iterating `dir`;
files in nested sub-directories are not visited). -/
def basename_in_dir (dir p : String) : Option String :=
  let dl := dir.data ++ ['/']
  if p.data.take dl.length == dl then
    let rest := p.data.drop dl.length
    if rest.contains '/' || rest.isEmpty then none else some (String.mk rest)
  else none

/-- `list_g4_names_in_dir` of image_render_service.cpp: enumerate `dir`,
keep `.g4` files, return `prefix + name`.  A missing or unopenable
directory cannot occur in the model (the missing-dir case returns the
empty listing, as the code does). -/
def list_g4_names_in_dir (dir pfx : String) (fs : Fs) : List String :=
  fs.filterMap fun e =>
    match basename_in_dir dir e.1 with
    | none => none
    | some base => if ends_with_str base ".g4" then some (pfx ++ base) else none

/-- `collect_g4_names_from_dir` of sd_storage_service.cpp: same
enumeration, but entries longer than `kMaxNameLen` are dropped. -/
def collect_g4_names_from_dir (dir pfx : String) (fs : Fs) : List String :=
  fs.filterMap fun e =>
    match basename_in_dir dir e.1 with
    | none => none
    | some base =>
      if ends_with_str base ".g4" then
        let entry := pfx ++ base
        if entry.length ≤ 127 then some entry else none
      else none

/-- `collect_g4_names`: both managed queue directories of the job engine. -/
def collect_g4_names (fs : Fs) : List String :=
  collect_g4_names_from_dir "/queue-permanent" "queue-permanent/" fs ++
    collect_g4_names_from_dir "/queue-temporary" "queue-temporary/" fs

/- ===== rtc_state.cpp ===== -/

/-- The persisted (RTC memory) selection state record, after its
magic/version validation has passed (`rtc_image_state_init`). -/
structure RtcImageState where
  last_image_name : String
  priority_image_name : String
  last_perm_name : String
  last_temp_name : String
  last_was_temp : Bool
deriving DecidableEq

/- ===== image_render_service.cpp ===== -/

/-- Selection mode (sd_photo_picker.h). -/
inductive SdImageSelectMode
  | Random
  | Sequential
deriving DecidableEq

/-- Oracle environment of one `image_render_service_render_next` call:
the wall clock, the RNG draws (`random(n)` is modelled as `rnd % n`; the
dead-code retry draw is `rnd2`), and the renderer outcome per path
(`it8951_renderer_init && it8951_render_g4`). -/
structure RenderEnv where
  now : Int
  rnd : Nat
  rnd2 : Nat
  renderOk : String → Bool

/-- `pick_random_from_list`. -/
def pick_random_from_list (names : List String) (rnd : Nat) : Option String :=
  if names.isEmpty then none else names[rnd % names.length]?

/-- The scan loop of `pick_sequential_from_list`: first index whose entry
equals the target (Arduino `String::operator==`). -/
def first_index_of : List String → String → Option Nat
  | [], _ => none
  | n :: rest, t => if n = t then some 0 else (first_index_of rest t).map (· + 1)

/-- `pick_sequential_from_list`: advance past the last-rendered name,
wrapping; fall back to index 0 when the name is empty or absent. -/
def pick_sequential_from_list (names : List String) (last_name : String) : Option String :=
  if names.isEmpty then none
  else
    let idx :=
      if last_name ≠ "" then
        match first_index_of names last_name with
        | some i => (i + 1) % names.length
        | none => 0
      else 0
    names[idx]?

/-- `select_from_list`. -/
def select_from_list (names : List String) (mode : SdImageSelectMode)
    (last_name : String) (rnd : Nat) : Option String :=
  match mode with
  | SdImageSelectMode.Random => pick_random_from_list names rnd
  | SdImageSelectMode.Sequential => pick_sequential_from_list names last_name

/-- `build_temp_candidates`: walk the temporary names; when cleanup is
allowed, an entry whose parsed expiry is `≤ now` is deleted from the SD
volume and excluded from the candidates. -/
def build_temp_candidates (names : List String) (allow_cleanup : Bool) (now : Int)
    (fs : Fs) : List String × Fs :=
  match names with
  | [] => ([], fs)
  | n :: rest =>
    if allow_cleanup &&
        (match parse_temp_expiry n with
         | some e => decide (e ≤ now)
         | none => false) then
      let fs1 := if fsExists fs ("/" ++ n) then fsRemove fs ("/" ++ n) else fs
      build_temp_candidates rest allow_cleanup now fs1
    else
      let r := build_temp_candidates rest allow_cleanup now fs
      (n :: r.1, r.2)

/-- The clock-validity glue of `image_render_service_render_next`
(lines 238-245): cleanup is allowed only when the clock is past the
minimum epoch, and `now` is read only in that case. -/
def prune_temp_stage (now : Int) (names : List String) (fs : Fs) : List String × Fs :=
  let can_cleanup := is_time_valid now
  build_temp_candidates names can_cleanup (if can_cleanup then now else 0) fs

/-- Sorted `/perm` listing used by the selection. -/
def perm_list (fs : Fs) : List String :=
  sort_names (list_g4_names_in_dir "/perm" "perm/" fs)

/-- Sorted `/temp` listing used by the selection. -/
def temp_list (fs : Fs) : List String :=
  sort_names (list_g4_names_in_dir "/temp" "temp/" fs)

/-- The collection choice and in-collection selection of
`image_render_service_render_next` (lines 253-289): pick the collection
opposite to the persisted alternation bit when both are available, select
within it, and fall back to the other collection when the selection
fails.  Returns the selected name together with `selected_is_temp`. -/
def render_next_pick (mode : SdImageSelectMode) (env : RenderEnv) (st : RtcImageState)
    (perm_names temp_candidates : List String) : Option (String × Bool) :=
  let has_temp := !temp_candidates.isEmpty
  let has_perm := !perm_names.isEmpty
  let choose_temp := if has_temp && has_perm then !st.last_was_temp else has_temp
  let first_temp :=
    if choose_temp && has_temp then
      select_from_list temp_candidates mode st.last_temp_name env.rnd
    else none
  match first_temp with
  | some s => some (s, true)
  | none =>
    match select_from_list perm_names mode st.last_perm_name env.rnd with
    | some s => some (s, false)
    | none =>
      if has_temp then
        match select_from_list temp_candidates mode st.last_temp_name env.rnd2 with
        | some s => some (s, true)
        | none => none
      else none

/-- The persistence block of `image_render_service_render_next`
(lines 296-304): update the legacy sequential cursor, the per-collection
cursor of the collection actually used, and the alternation bit. -/
def render_next_commit (mode : SdImageSelectMode) (st : RtcImageState)
    (selected_name : String) (selected_is_temp : Bool) : RtcImageState :=
  let st1 :=
    if mode = SdImageSelectMode.Sequential then
      { st with last_image_name := selected_name }
    else st
  let st2 :=
    if selected_is_temp then { st1 with last_temp_name := selected_name }
    else { st1 with last_perm_name := selected_name }
  { st2 with last_was_temp := selected_is_temp }

/-- The non-priority part of `image_render_service_render_next`
(lines 224-306): enumerate and sort both collections, prune expired
temporaries, pick the collection opposite to the persisted alternation
bit, select within it, render, and persist the cursors and the bit.
Returns (success, new persisted state, new SD volume). -/
def image_render_service_render_next_normal (mode : SdImageSelectMode) (env : RenderEnv)
    (st : RtcImageState) (fs : Fs) : Bool × RtcImageState × Fs :=
  let perm_names := perm_list fs
  let temp_names := temp_list fs
  let pr := prune_temp_stage env.now temp_names fs
  let temp_candidates := pr.1
  let fs1 := pr.2
  let has_temp := !temp_candidates.isEmpty
  let has_perm := !perm_names.isEmpty
  if !has_temp && !has_perm then (false, st, fs1)
  else
    match render_next_pick mode env st perm_names temp_candidates with
    | none => (false, st, fs1)
    | some (selected_name, selected_is_temp) =>
      if !env.renderOk ("/" ++ selected_name) then (false, st, fs1)
      else (true, render_next_commit mode st selected_name selected_is_temp, fs1)

/-- `image_render_service_render_next` (lines 199-306).  The priority
short-circuit clears the override before checking existence; note that
after `rtc_image_state_clear_priority_image_name()` the C code keeps
reading `priority_name`, a pointer into the just-cleared RTC buffer, so
on the successful priority path the persisted names are written as the
empty string and the alternation bit as `false` — the model reproduces
that aliasing faithfully. -/
def image_render_service_render_next (mode : SdImageSelectMode) (env : RenderEnv)
    (st : RtcImageState) (fs : Fs) : Bool × RtcImageState × Fs :=
  let p := st.priority_image_name
  if p ≠ "" then
    let priority_path := "/" ++ p
    let st1 := { st with priority_image_name := "" }
    if fsExists fs priority_path then
      if !env.renderOk priority_path then (false, st1, fs)
      else
        let stale : String := ""
        let st2 :=
          if mode = SdImageSelectMode.Sequential then { st1 with last_image_name := stale }
          else st1
        let is_temp := has_pfx stale.data "temp/".data
        let st3 :=
          if is_temp then { st2 with last_temp_name := stale }
          else { st2 with last_perm_name := stale }
        (true, { st3 with last_was_temp := is_temp }, fs)
    else image_render_service_render_next_normal mode env st1 fs
  else image_render_service_render_next_normal mode env st fs

/- ===== sd_storage_service.cpp : jobs and the job table ===== -/

/-- `kMaxJobs`. -/
def kMaxJobs : Nat := 16

/-- `kJobGcMinAgeMs`. -/
def kJobGcMinAgeMs : Nat := 60000

/-- `kJobQueueDepth`. -/
def kJobQueueDepth : Nat := 8

/-- `uint32_t` wrap-around subtraction, as in `now - job->updated_ms`. -/
def u32sub (a b : Nat) : Nat := (a % 2 ^ 32 + 2 ^ 32 - b % 2 ^ 32) % 2 ^ 32

/-- `SdJobType` (sd_storage_service.h). -/
inductive SdJobType
  | List
  | Delete
  | Upload
  | Display
  | RenderNext
  | SyncFromAzure
deriving DecidableEq

/-- `SdJobState` (sd_storage_service.h). -/
inductive SdJobState
  | Queued
  | Running
  | Done
  | Error
deriving DecidableEq

/-- The `SdJob` record.  The owned heap buffer is `buffer : Option (List Nat)`
(`none` models a null `buffer` pointer; `buffer_size` is its length). -/
structure SdJob where
  id : Nat
  type : SdJobType
  state : SdJobState
  success : Bool
  bytes : Nat
  created_ms : Nat
  updated_ms : Nat
  message : String
  name : String
  buffer : Option (List Nat)
  mode : SdImageSelectMode
  last_index : Nat
  last_name : String
  sas_url : String
  names : List String
deriving DecidableEq

/-- A fresh default job (the C++ member initialisers of `SdJob`). -/
def sdJobDefault : SdJob :=
  { id := 0
    type := SdJobType.List
    state := SdJobState.Queued
    success := false
    bytes := 0
    created_ms := 0
    updated_ms := 0
    message := ""
    name := ""
    buffer := none
    mode := SdImageSelectMode.Random
    last_index := 0
    last_name := ""
    sas_url := ""
    names := [] }

/-- `alloc_job`: assign the next id (a `uint32_t` counter starting at 1)
and the creation timestamp.  Returns the job and the advanced counter. -/
def alloc_job (next_job_id : Nat) (now : Nat) : SdJob × Nat :=
  ({ sdJobDefault with
      id := next_job_id % 2 ^ 32
      created_ms := now
      updated_ms := now },
    next_job_id + 1)

/-- `free_job` frees the owned buffer exactly when the pointer is non-null. -/
def free_job_frees (j : SdJob) : Bool := j.buffer.isSome

/-- `gc_jobs_locked`: reclaim terminal jobs whose age is at least
`kJobGcMinAgeMs`; `Queued`/`Running` jobs are always kept. -/
def gc_jobs_locked (now : Nat) (jobs : List (Option SdJob)) : List (Option SdJob) :=
  jobs.map fun slot =>
    match slot with
    | none => none
    | some j =>
      if j.state = SdJobState.Queued ∨ j.state = SdJobState.Running then some j
      else if u32sub now j.updated_ms < kJobGcMinAgeMs then some j
      else none

/-- First free slot of the table scan in `store_job`. -/
def find_free_slot : List (Option SdJob) → Option Nat
  | [] => none
  | none :: _ => some 0
  | some _ :: rest => (find_free_slot rest).map (· + 1)

/-- The eviction scan of `store_job`: index of the completed job with the
strictly smallest `updated_ms` (initial bound `UINT32_MAX`). -/
def oldest_evictable_aux : List (Option SdJob) → Nat → Option Nat → Nat → Option Nat
  | [], _, best, _ => best
  | slot :: rest, i, best, bestMs =>
    match slot with
    | none => oldest_evictable_aux rest (i + 1) best bestMs
    | some j =>
      if j.state = SdJobState.Queued ∨ j.state = SdJobState.Running then
        oldest_evictable_aux rest (i + 1) best bestMs
      else if j.updated_ms < bestMs then
        oldest_evictable_aux rest (i + 1) (some i) j.updated_ms
      else oldest_evictable_aux rest (i + 1) best bestMs

/-- Index the eviction scan settles on (`kMaxJobs` sentinel is `none`). -/
def oldest_evictable (jobs : List (Option SdJob)) : Option Nat :=
  oldest_evictable_aux jobs 0 none (2 ^ 32 - 1)

/-- `store_job`: garbage-collect, take a free slot, otherwise evict the
oldest completed job.  Returns the new table and the slot used (`none`
models the `false` return; the evicted job is freed). -/
def store_job (now : Nat) (jobs : List (Option SdJob)) (job : SdJob) :
    List (Option SdJob) × Option Nat :=
  let jobs1 := gc_jobs_locked now jobs
  match find_free_slot jobs1 with
  | some i => (jobs1.set i (some job), some i)
  | none =>
    match oldest_evictable jobs1 with
    | some i => (jobs1.set i (some job), some i)
    | none => (jobs1, none)

/-- Occupancy of the job table. -/
def count_some (jobs : List (Option SdJob)) : Nat := jobs.countP fun s => s.isSome

/-- The synchronous failure marking of `enqueue_job` when `xQueueSend`
rejects the job. -/
def mark_queue_full (now : Nat) (j : SdJob) : SdJob :=
  { j with
    state := SdJobState.Error
    success := false
    message := "Queue full"
    updated_ms := now }

/-- Result of `enqueue_job`: the table, the queue (ids of jobs handed to
the worker), and the returned id (0 = rejected). -/
structure EnqueueResult where
  jobs : List (Option SdJob)
  queue : List Nat
  retId : Nat
deriving DecidableEq

/-- `enqueue_job`: store in the table (failure returns 0 after freeing),
then non-blocking `xQueueSend`; a full queue marks the stored job
`Error`/"Queue full" but still returns its id.  (When the queue was never
created the C code frees the job and returns 0, leaving the dangling
table pointer; the model keeps the table as-is.) -/
def enqueue_job (now : Nat) (queueCreated : Bool) (jobs : List (Option SdJob))
    (queue : List Nat) (job : SdJob) : EnqueueResult :=
  match store_job now jobs job with
  | (jobs1, none) => ⟨jobs1, queue, 0⟩
  | (jobs1, some i) =>
    if !queueCreated then ⟨jobs1, queue, 0⟩
    else if kJobQueueDepth ≤ queue.length then
      ⟨jobs1.set i (some (mark_queue_full now job)), queue, job.id⟩
    else ⟨jobs1, queue ++ [job.id], job.id⟩

/- ===== sd_storage_service.cpp : the atomic upload write ===== -/

/-- `is_valid_g4_name`: non-empty, at most `kMaxNameLen` characters, no
backslash, no `..`, `.g4` suffix, and either no separator or exactly one
with a known queue prefix. -/
def is_valid_g4_name (name : String) : Bool :=
  let cs := name.data
  let len := cs.length
  if len = 0 || decide (127 < len) then false
  else if cs.contains '\\' then false
  else if (find_sub_from cs ['.', '.'] 0).isSome then false
  else if decide (len < 3) || !(cs.drop (len - 3) == ['.', 'g', '4']) then false
  else
    let slashes := cs.countP fun c => c == '/'
    if slashes = 0 then true
    else if slashes = 1 &&
        (has_pfx cs "queue-permanent/".data || has_pfx cs "queue-temporary/".data) then true
    else false

/-- Oracle outcomes of the SD driver during one `write_upload_to_sd`:
whether the parent directory exists, whether `SD.mkdir` succeeds, whether
`SD.open(temp, FILE_WRITE)` succeeds, how many bytes `file.write`
reports, and whether `SD.rename` succeeds. -/
structure UploadEnv where
  dirExists : Bool
  mkdirOk : Bool
  openOk : Bool
  writeReturn : Nat
  renameOk : Bool
deriving DecidableEq

/-- Result of `write_upload_to_sd` (the boolean return, the job with its
`bytes`/`message` updates, and the SD volume). -/
structure UploadOutcome where
  ok : Bool
  job : SdJob
  fs : Fs
deriving DecidableEq

/-- `write_upload_to_sd` (lines 264-326): write the payload to the `.tmp`
sibling; only a byte-for-byte complete write deletes the old target and
renames the temporary onto it; every failure removes the temporary. -/
def write_upload_to_sd (env : UploadEnv) (job : SdJob) (fs : Fs) : UploadOutcome :=
  match job.buffer with
  | none => ⟨false, job, fs⟩
  | some payload =>
    if payload.length = 0 then ⟨false, job, fs⟩
    else if !is_valid_g4_name job.name then
      ⟨false, { job with message := "Invalid filename" }, fs⟩
    else
      let target := "/" ++ job.name
      let temp := target ++ ".tmp"
      let needDir :=
        match find_sub_from target.data.reverse ['/'] 0 with
        | some ri => target.data.length - 1 - ri > 0
        | none => false
      if needDir && !env.dirExists && !env.mkdirOk then
        ⟨false, { job with message := "Create dir failed" }, fs⟩
      else
        let fs1 := if fsExists fs temp then fsRemove fs temp else fs
        if !env.openOk then ⟨false, { job with message := "Open failed" }, fs1⟩
        else
          let written := min env.writeReturn payload.length
          let fs2 := fsInsert fs1 temp (payload.take written)
          let job1 := { job with bytes := written }
          if written ≠ payload.length then
            ⟨false, { job1 with message := "Write failed" }, fsRemove fs2 temp⟩
          else
            let fs3 := if fsExists fs2 target then fsRemove fs2 target else fs2
            if !env.renameOk then
              ⟨false, { job1 with message := "Rename failed" }, fsRemove fs3 temp⟩
            else ⟨true, job1, fsInsert (fsRemove fs3 temp) target payload⟩

/- ===== sd_storage_service.cpp : cloud reconciliation ===== -/

/-- `delete_all_g4_files` (lines 328-351): remove every managed `.g4`
file under both queue directories.  (The collect step cannot fail in the
model; the per-file `SD.remove` result only affects the count message.) -/
def delete_all_g4_files (fs : Fs) : Fs :=
  (collect_g4_names fs).foldl
    (fun acc n => if fsExists acc ("/" ++ n) then fsRemove acc ("/" ++ n) else acc) fs

/-- `derive_queue_name_from_all_blob`: prefix substitution
`all/temporary/ ↦ queue-temporary/`, `all/permanent/ ↦ queue-permanent/`. -/
def derive_queue_name_from_all_blob (all_name : String) : Option String :=
  if has_pfx all_name.data "all/temporary/".data then
    some ("queue-temporary/" ++ String.mk (all_name.data.drop 14))
  else if has_pfx all_name.data "all/permanent/".data then
    some ("queue-permanent/" ++ String.mk (all_name.data.drop 14))
  else none

/-- Oracle environment of one `handle_sync_from_azure` call: the network
session, SAS parsing, the four paginated listings (already concatenated;
`none` is a failed listing), the wall clock, and per-blob download /
SD-write oracles. -/
structure AzureEnv where
  wifiConnected : Bool
  sasParseOk : Bool
  listQueueTemp : Option (List String)
  listQueuePerm : Option (List String)
  listAllTemp : Option (List String)
  listAllPerm : Option (List String)
  now : Int
  download : String → Option (List Nat)
  uploadEnvFor : String → UploadEnv

/-- `list_all_g4_blobs`: accumulate the pages, keep `.g4` names, sort. -/
def list_all_g4_blobs (raw : Option (List String)) : Option (List String) :=
  raw.map fun ns => sort_names (ns.filter fun n => ends_with_str n ".g4")

/-- One reconciliation target (the `SyncTarget` struct). -/
structure SyncTarget where
  blob_name : String
  queue_name : String
  is_temp : Bool
deriving DecidableEq

/-- The `add_target` lambda: derive the queue-relative name, skip entries
already queued (binary search) and expired temporaries. -/
def add_target (queue_names : List String) (now : Int) (acc : List SyncTarget)
    (all_name : String) (is_temp : Bool) : List SyncTarget :=
  match derive_queue_name_from_all_blob all_name with
  | none => acc
  | some q =>
    if binSearch queue_names q then acc
    else if is_temp then
      match parse_all_temp_expiry all_name with
      | some e => if decide (e ≤ now) then acc else acc ++ [⟨all_name, q, true⟩]
      | none => acc ++ [⟨all_name, q, true⟩]
    else acc ++ [⟨all_name, q, false⟩]

/-- The two `add_target` loops over the archive listings. -/
def build_sync_targets (queue_names : List String) (all_temp all_perm : List String)
    (now : Int) : List SyncTarget :=
  all_perm.foldl (fun a n => add_target queue_names now a n false)
    (all_temp.foldl (fun a n => add_target queue_names now a n true) [])

/-- Accumulator of the download loop, with bookkeeping of every download
attempt (`downloads`) and every SD write attempt (`writes`). -/
structure SyncAccum where
  fs : Fs
  okCount : Nat
  failCount : Nat
  failedNames : List String
  downloads : List String
  writes : List String

/-- The `download_and_write` lambda (lines 513-559): download the blob,
then commit it through `write_upload_to_sd` under its queue-relative
name; each failure is recorded without aborting the batch, and the
downloaded buffer is freed after the item. -/
def download_and_write (env : AzureEnv) (acc : SyncAccum) (t : SyncTarget) : SyncAccum :=
  let acc1 := { acc with downloads := acc.downloads ++ [t.blob_name] }
  match env.download t.blob_name with
  | none =>
    { acc1 with
      failCount := acc1.failCount + 1
      failedNames := acc1.failedNames ++ [t.blob_name] }
  | some buf =>
    if buf.length = 0 then
      { acc1 with
        failCount := acc1.failCount + 1
        failedNames := acc1.failedNames ++ [t.blob_name] }
    else
      let job := { sdJobDefault with name := t.queue_name, buffer := some buf }
      let out := write_upload_to_sd (env.uploadEnvFor t.queue_name) job acc1.fs
      if out.ok then
        { acc1 with
          fs := out.fs
          okCount := acc1.okCount + 1
          writes := acc1.writes ++ [t.queue_name] }
      else
        { acc1 with
          fs := out.fs
          failCount := acc1.failCount + 1
          failedNames := acc1.failedNames ++ [t.queue_name]
          writes := acc1.writes ++ [t.queue_name] }

/-- Result of `handle_sync_from_azure`. -/
structure SyncResult where
  ok : Bool
  fs : Fs
  message : String
  failedNames : List String
  downloads : List String
  writes : List String

/-- `handle_sync_from_azure` (lines 397-570): check SAS URL presence,
WiFi, SAS parsing; delete all local managed files; only then check clock
validity; list the four remote prefixes (any failure aborts); build the
already-queued set and the targets; download and commit each target.
Success requires zero per-item failures. -/
def handle_sync_from_azure (env : AzureEnv) (sas_url : String) (fs : Fs) : SyncResult :=
  if sas_url = "" then ⟨false, fs, "Missing SAS URL", [], [], []⟩
  else if !env.wifiConnected then ⟨false, fs, "WiFi not connected", [], [], []⟩
  else if !env.sasParseOk then ⟨false, fs, "Invalid SAS URL", [], [], []⟩
  else
    let fs1 := delete_all_g4_files fs
    if !is_time_valid env.now then ⟨false, fs1, "Time not synced", [], [], []⟩
    else
      match list_all_g4_blobs env.listQueueTemp, list_all_g4_blobs env.listQueuePerm,
          list_all_g4_blobs env.listAllTemp, list_all_g4_blobs env.listAllPerm with
      | some qt, some qp, some allT, some allP =>
        let queue_names := sort_names (qt ++ qp)
        let targets := build_sync_targets queue_names allT allP env.now
        let acc := targets.foldl (download_and_write env) ⟨fs1, 0, 0, [], [], []⟩
        { ok := acc.failCount = 0
          fs := acc.fs
          message := "Synced: ok=" ++ toString acc.okCount ++ " failed=" ++
            toString acc.failCount
          failedNames := acc.failedNames
          downloads := acc.downloads
          writes := acc.writes }
      | _, _, _, _ => ⟨false, fs1, "Azure list failed", [], [], []⟩

/- ===== sd_storage_service.cpp : the worker ===== -/

/-- Oracle environment of one worker iteration: whether the SD medium
mounts (`ensure_sd_ready_internal`), the clock, the SD driver oracles of
an Upload job, and the boolean outcome of the non-Upload handlers (which
never read or free `job->buffer`; their SD/display/RTC effects are
modelled with the dedicated functions elsewhere in this file). -/
structure WorkerEnv where
  mountOk : Bool
  now : Nat
  uploadEnv : UploadEnv
  otherOk : Bool
deriving DecidableEq

/-- The type dispatch of `worker_task` (lines 606-674).  The Upload case
runs `write_upload_to_sd`; the remaining handlers are represented by
their boolean outcome (none of them reads, installs or frees
`job->buffer`). -/
def worker_dispatch (env : WorkerEnv) (fs : Fs) (jobR : SdJob) : Bool × SdJob × Fs :=
  match jobR.type with
  | SdJobType.Upload =>
    let out := write_upload_to_sd env.uploadEnv jobR fs
    (out.ok, out.job, out.fs)
  | _ => (env.otherOk, jobR, fs)

/-- One iteration of `worker_task` (lines 586-691) on a received job:
mark Running; on mount failure mark Error "SD init failed" and abandon
the job (`continue` — the owned buffer is NOT freed on this path);
otherwise dispatch, set the terminal state, then free the owned buffer
if present.  Returns (job, SD volume, whether the worker freed the buffer). -/
def worker_step (env : WorkerEnv) (fs : Fs) (job : SdJob) : SdJob × Fs × Bool :=
  let jobR := { job with state := SdJobState.Running, updated_ms := env.now }
  if !env.mountOk then
    ({ jobR with
        state := SdJobState.Error
        success := false
        message := "SD init failed"
        updated_ms := env.now }, fs, false)
  else
    let dr := worker_dispatch env fs jobR
    let job2 := { dr.2.1 with
      success := dr.1
      state := if dr.1 then SdJobState.Done else SdJobState.Error
      updated_ms := env.now }
    if job2.buffer.isSome then ({ job2 with buffer := none }, dr.2.2, true)
    else (job2, dr.2.2, false)

/- ===== Theorems.  First: order lemmas for the name comparator ===== -/

theorem lexLt_irrefl : ∀ a, lexLt a a = false
  | [] => rfl
  | c :: cs => by
    rw [lexLt, if_neg (lt_irrefl c), if_neg (lt_irrefl c)]
    exact lexLt_irrefl cs

theorem lexLt_asymm : ∀ a b, lexLt a b = true → lexLt b a = false
  | [], [], h => by simp [lexLt] at h
  | [], _ :: _, _ => rfl
  | _ :: _, [], h => by simp [lexLt] at h
  | x :: xs, y :: ys, h => by
    rw [lexLt] at h ⊢
    by_cases hxy : x < y
    · rw [if_neg (asymm hxy), if_pos hxy]
    · rw [if_neg hxy] at h
      by_cases hyx : y < x
      · rw [if_pos hyx] at h
        exact absurd h (by simp)
      · rw [if_neg hyx] at h
        rw [if_neg hyx, if_neg hxy]
        exact lexLt_asymm xs ys h

theorem lexLt_eq_of_both_false :
    ∀ a b, lexLt a b = false → lexLt b a = false → a = b
  | [], [], _, _ => rfl
  | [], _ :: _, h1, _ => by simp [lexLt] at h1
  | _ :: _, [], _, h2 => by simp [lexLt] at h2
  | x :: xs, y :: ys, h1, h2 => by
    rw [lexLt] at h1 h2
    by_cases hxy : x < y
    · rw [if_pos hxy] at h1
      exact absurd h1 (by simp)
    · by_cases hyx : y < x
      · rw [if_pos hyx] at h2
        exact absurd h2 (by simp)
      · rw [if_neg hxy, if_neg hyx] at h1
        rw [if_neg hyx, if_neg hxy] at h2
        have hxy' : x = y := le_antisymm (le_of_not_lt hyx) (le_of_not_lt hxy)
        rw [hxy', lexLt_eq_of_both_false xs ys h1 h2]

theorem lexLt_trans : ∀ a b c, lexLt a b = true → lexLt b c = true → lexLt a c = true
  | [], [], _, h1, _ => by simp [lexLt] at h1
  | [], _ :: _, [], _, h2 => by simp [lexLt] at h2
  | [], _ :: _, _ :: _, _, _ => rfl
  | _ :: _, [], _, h1, _ => by simp [lexLt] at h1
  | _ :: _, _ :: _, [], _, h2 => by simp [lexLt] at h2
  | x :: xs, y :: ys, z :: zs, h1, h2 => by
    rw [lexLt] at h1 h2 ⊢
    by_cases hxy : x < y
    · by_cases hyz : y < z
      · rw [if_pos (lt_trans hxy hyz)]
      · rw [if_neg hyz] at h2
        by_cases hzy : z < y
        · rw [if_pos hzy] at h2
          exact absurd h2 (by simp)
        · have hyz' : y = z := le_antisymm (le_of_not_lt hzy) (le_of_not_lt hyz)
          rw [← hyz', if_pos hxy]
    · rw [if_neg hxy] at h1
      by_cases hyx : y < x
      · rw [if_pos hyx] at h1
        exact absurd h1 (by simp)
      · rw [if_neg hyx] at h1
        have hxy' : x = y := le_antisymm (le_of_not_lt hyx) (le_of_not_lt hxy)
        subst hxy'
        by_cases hyz : x < z
        · rw [if_pos hyz]
        · rw [if_neg hyz] at h2 ⊢
          by_cases hzy : z < x
          · rw [if_pos hzy] at h2
            exact absurd h2 (by simp)
          · rw [if_neg hzy] at h2 ⊢
            exact lexLt_trans xs ys zs h1 h2

theorem strLe_total : ∀ a b : String, strLeRel a b ∨ strLeRel b a := by
  intro a b
  unfold strLeRel strLe
  rcases h : lexLt b.data a.data with _ | _
  · left
    rfl
  · right
    rw [lexLt_asymm _ _ h]
    rfl

theorem strLe_trans' : ∀ a b c : String, strLeRel a b → strLeRel b c → strLeRel a c := by
  intro a b c h1 h2
  unfold strLeRel strLe at h1 h2 ⊢
  rw [Bool.not_eq_true'] at h1 h2 ⊢
  rcases h : lexLt c.data a.data with _ | _
  · rfl
  · exfalso
    rcases hab : lexLt a.data b.data with _ | _
    · have hEq : a.data = b.data := lexLt_eq_of_both_false _ _ hab h1
      rw [hEq] at h
      rw [h] at h2
      simp at h2
    · have := lexLt_trans _ _ _ h hab
      rw [this] at h2
      simp at h2

theorem str_eq_of_both_not_lt {a b : String} (h1 : strLt a b = false) (h2 : strLt b a = false) :
    a = b := by
  unfold strLt at h1 h2
  exact String.ext (lexLt_eq_of_both_false _ _ h1 h2)

theorem sort_names_sorted (l : List String) : List.Pairwise strLeRel (sort_names l) := by
  haveI : IsTotal String strLeRel := ⟨strLe_total⟩
  haveI : IsTrans String strLeRel := ⟨strLe_trans'⟩
  exact List.sorted_insertionSort strLeRel l

theorem mem_sort_names {a : String} {l : List String} : a ∈ sort_names l ↔ a ∈ l :=
  (List.perm_insertionSort strLeRel l).mem_iff

/- ===== Binary search completeness on sorted listings ===== -/

theorem binSearchAux_complete :
    ∀ (fuel : Nat) (l : List String) (q : String), List.Pairwise strLeRel l → q ∈ l →
      l.length ≤ fuel → binSearchAux fuel l q = true := by
  intro fuel
  induction fuel with
  | zero =>
    intro l q _ hm hl
    rw [Nat.le_zero, List.length_eq_zero] at hl
    subst hl
    cases hm
  | succ fuel ih =>
    intro l q hs hm hl
    have hne : l ≠ [] := by rintro rfl; cases hm
    have hlen : 0 < l.length := List.length_pos.mpr hne
    have hemp : l.isEmpty = false := by
      cases l with
      | nil => exact absurd rfl hne
      | cons a as => rfl
    have hm2 : l.length / 2 < l.length := Nat.div_lt_self hlen (by omega)
    rw [binSearchAux, hemp]
    simp only [Bool.false_eq_true, if_false]
    rw [List.getD_eq_getElem l "" hm2]
    have hsplit := List.take_append_drop (l.length / 2) l
    have hdropm := List.drop_eq_getElem_cons hm2
    have hs' := hs
    rw [← hsplit, List.pairwise_append] at hs'
    obtain ⟨hs1, hs2, hcross⟩ := hs'
    rw [hdropm, List.pairwise_cons] at hs2
    obtain ⟨hhead, hs3⟩ := hs2
    have hpiv_mem_drop : l[l.length / 2] ∈ l.drop (l.length / 2) := by
      rw [hdropm]; exact List.mem_cons_self _ _
    have hmem' : q ∈ l.take (l.length / 2) ∨ q = l[l.length / 2] ∨ q ∈ l.drop (l.length / 2 + 1) := by
      have : q ∈ l.take (l.length / 2) ++ l.drop (l.length / 2) := by rw [hsplit]; exact hm
      rcases List.mem_append.mp this with h | h
      · exact Or.inl h
      · rw [hdropm] at h
        rcases List.mem_cons.mp h with h | h
        · exact Or.inr (Or.inl h)
        · exact Or.inr (Or.inr h)
    by_cases hlt : strLt l[l.length / 2] q = true
    · rw [if_pos hlt]
      apply ih _ q hs3
      · rcases hmem' with h | h | h
        · have := hcross q h _ hpiv_mem_drop
          unfold strLeRel strLe at this
          rw [Bool.not_eq_true'] at this
          unfold strLt at hlt
          rw [this] at hlt
          exact absurd hlt (by simp)
        · subst h
          unfold strLt at hlt
          rw [lexLt_irrefl] at hlt
          exact absurd hlt (by simp)
        · exact h
      · rw [List.length_drop]
        omega
    · rw [if_neg hlt]
      by_cases hgt : strLt q l[l.length / 2] = true
      · rw [if_pos hgt]
        apply ih _ q hs1
        · rcases hmem' with h | h | h
          · exact h
          · subst h
            unfold strLt at hgt
            rw [lexLt_irrefl] at hgt
            exact absurd hgt (by simp)
          · have := hhead q h
            unfold strLeRel strLe at this
            rw [Bool.not_eq_true'] at this
            unfold strLt at hgt
            rw [this] at hgt
            exact absurd hgt (by simp)
        · rw [List.length_take]
          omega
      · rw [if_neg hgt]

theorem binSearch_complete {l : List String} {q : String}
    (hs : List.Pairwise strLeRel l) (hm : q ∈ l) : binSearch l q = true :=
  binSearchAux_complete l.length l q hs hm le_rfl

/- ===== SD volume lemmas ===== -/

theorem fsGet_fsRemove_self : ∀ (fs : Fs) (p : String), fsGet (fsRemove fs p) p = none := by
  intro fs p
  induction fs with
  | nil => rfl
  | cons e rest ih =>
    rw [fsRemove]
    by_cases h : e.1 = p
    · rw [if_pos h]; exact ih
    · rw [if_neg h, fsGet, if_neg h]; exact ih

theorem fsGet_fsRemove_ne : ∀ (fs : Fs) (p q : String), q ≠ p →
    fsGet (fsRemove fs p) q = fsGet fs q := by
  intro fs p q hq
  induction fs with
  | nil => rfl
  | cons e rest ih =>
    rw [fsRemove]
    by_cases h : e.1 = p
    · rw [if_pos h, ih, fsGet, if_neg (fun h2 => hq (by rw [← h2, h]))]
    · rw [if_neg h]
      simp only [fsGet]
      by_cases h2 : e.1 = q
      · rw [if_pos h2, if_pos h2]
      · rw [if_neg h2, if_neg h2]
        exact ih

theorem fsGet_append : ∀ (fs1 fs2 : Fs) (p : String),
    fsGet (fs1 ++ fs2) p = match fsGet fs1 p with
      | some c => some c
      | none => fsGet fs2 p := by
  intro fs1 fs2 p
  induction fs1 with
  | nil => rfl
  | cons e rest ih =>
    rw [List.cons_append, fsGet, fsGet]
    by_cases h : e.1 = p
    · rw [if_pos h, if_pos h]
    · rw [if_neg h, if_neg h]; exact ih

theorem fsGet_fsInsert_self (fs : Fs) (p : String) (c : List Nat) :
    fsGet (fsInsert fs p c) p = some c := by
  rw [fsInsert, fsGet_append, fsGet_fsRemove_self]
  simp [fsGet]

theorem fsGet_fsInsert_ne (fs : Fs) (p q : String) (c : List Nat) (hq : q ≠ p) :
    fsGet (fsInsert fs p c) q = fsGet fs q := by
  rw [fsInsert, fsGet_append, fsGet_fsRemove_ne fs p q hq]
  cases h : fsGet fs q with
  | some c' => rfl
  | none =>
    have hpq : ¬ p = q := fun h2 => hq h2.symm
    simp [fsGet, hpq]

theorem fsExists_fsRemove_self (fs : Fs) (p : String) :
    fsExists (fsRemove fs p) p = false := by
  rw [fsExists, fsGet_fsRemove_self]; rfl

theorem fsExists_fsRemove_mono {fs : Fs} {p q : String}
    (h : fsExists (fsRemove fs p) q = true) : fsExists fs q = true := by
  by_cases hq : q = p
  · subst hq; rw [fsExists_fsRemove_self] at h; exact absurd h (by simp)
  · rw [fsExists, fsGet_fsRemove_ne fs p q hq] at h; exact h

/- ===== first_index_of lemmas ===== -/

theorem first_index_of_eq_none : ∀ (names : List String) (t : String), t ∉ names →
    first_index_of names t = none := by
  intro names t h
  induction names with
  | nil => rfl
  | cons n rest ih =>
    rw [first_index_of,
      if_neg (fun he => h (by rw [← he]; exact List.mem_cons_self n rest))]
    rw [ih (fun hr => h (List.mem_cons_of_mem n hr))]
    rfl

theorem first_index_of_spec : ∀ (names : List String) (t : String) (i : Nat),
    first_index_of names t = some i → i < names.length ∧ names[i]? = some t := by
  intro names t
  induction names with
  | nil => intro i h; cases h
  | cons n rest ih =>
    intro i h
    rw [first_index_of] at h
    by_cases he : n = t
    · rw [if_pos he] at h
      cases h
      exact ⟨by simp, by simp [he]⟩
    · rw [if_neg he] at h
      cases hr : first_index_of rest t with
      | none => rw [hr] at h; cases h
      | some j =>
        rw [hr] at h
        simp only [Option.map_some'] at h
        cases h
        obtain ⟨hj1, hj2⟩ := ih j hr
        constructor
        · simpa using Nat.succ_lt_succ hj1
        · simpa using hj2

/- ===== C7 : sequential selection ===== -/

/-- C7: in Sequential mode, for every non-empty sorted collection list the
selection returns the entry immediately after the persisted last-rendered
name (wrapping from the last entry to index 0), and returns the entry at
index 0 when the last-rendered name is empty or absent from the list. -/
theorem c7_sequential_selection (names : List String) (last : String)
    (hne : names ≠ []) (hsorted : List.Pairwise strLeRel names) :
    ((last = "" ∨ last ∉ names) → pick_sequential_from_list names last = names[0]?)
    ∧ (∀ i, last ≠ "" → first_index_of names last = some i →
        pick_sequential_from_list names last = names[(i + 1) % names.length]?) := by
  have hemp : names.isEmpty = false := by
    cases names with
    | nil => exact absurd rfl hne
    | cons a as => rfl
  constructor
  · intro h
    rw [pick_sequential_from_list, hemp]
    simp only [Bool.false_eq_true, if_false]
    rcases h with h | h
    · subst h
      rw [if_neg (by simp)]
    · by_cases hl : last = ""
      · subst hl
        rw [if_neg (by simp)]
      · rw [if_pos hl, first_index_of_eq_none names last h]
  · intro i hlast hfi
    rw [pick_sequential_from_list, hemp]
    simp only [Bool.false_eq_true, if_false]
    rw [if_pos hlast, hfi]

/-- Witness for C7 at the spec's own scenario: collection
`["a.g4","b.g4","c.g4"]`, last `"b.g4"` advances to `"c.g4"`, last
`"c.g4"` wraps to `"a.g4"`, and no prior name yields `"a.g4"`. -/
theorem c7_sequential_selection_witness :
    pick_sequential_from_list ["a.g4", "b.g4", "c.g4"] "b.g4" = some "c.g4"
    ∧ pick_sequential_from_list ["a.g4", "b.g4", "c.g4"] "c.g4" = some "a.g4"
    ∧ pick_sequential_from_list ["a.g4", "b.g4", "c.g4"] "" = some "a.g4" := by
  refine ⟨?_, ?_, ?_⟩
  · have := (c7_sequential_selection ["a.g4", "b.g4", "c.g4"] "b.g4" (by decide)
      (by decide)).2 1 (by decide) (by decide)
    rw [this]
    decide
  · have := (c7_sequential_selection ["a.g4", "b.g4", "c.g4"] "c.g4" (by decide)
      (by decide)).2 2 (by decide) (by decide)
    rw [this]
    decide
  · have := (c7_sequential_selection ["a.g4", "b.g4", "c.g4"] "" (by decide)
      (by decide)).1 (Or.inl rfl)
    rw [this]
    decide

/- ===== C6 : expiry pruning ===== -/

theorem build_temp_candidates_subset :
    ∀ (names : List String) (a : Bool) (now : Int) (fs : Fs) (x : String),
      x ∈ (build_temp_candidates names a now fs).1 → x ∈ names := by
  intro names
  induction names with
  | nil => intro a now fs x h; cases h
  | cons n rest ih =>
    intro a now fs x h
    rw [build_temp_candidates] at h
    by_cases hc : (a &&
        (match parse_temp_expiry n with
         | some e => decide (e ≤ now)
         | none => false)) = true
    · rw [if_pos hc] at h
      exact List.mem_cons_of_mem n (ih a now _ x h)
    · rw [if_neg hc] at h
      rcases List.mem_cons.mp h with h | h
      · exact h ▸ List.mem_cons_self n rest
      · exact List.mem_cons_of_mem n (ih a now fs x h)

theorem build_temp_candidates_fs_mono :
    ∀ (names : List String) (a : Bool) (now : Int) (fs : Fs) (p : String),
      fsExists (build_temp_candidates names a now fs).2 p = true → fsExists fs p = true := by
  intro names
  induction names with
  | nil => intro a now fs p h; exact h
  | cons n rest ih =>
    intro a now fs p h
    rw [build_temp_candidates] at h
    by_cases hc : (a &&
        (match parse_temp_expiry n with
         | some e => decide (e ≤ now)
         | none => false)) = true
    · rw [if_pos hc] at h
      have h1 := ih a now _ p h
      by_cases he : fsExists fs ("/" ++ n) = true
      · rw [if_pos he] at h1
        exact fsExists_fsRemove_mono h1
      · rw [if_neg he] at h1
        exact h1
    · rw [if_neg hc] at h
      exact ih a now fs p h

theorem build_temp_candidates_no_cleanup :
    ∀ (names : List String) (now : Int) (fs : Fs),
      build_temp_candidates names false now fs = (names, fs) := by
  intro names now fs
  induction names generalizing fs with
  | nil => rfl
  | cons n rest ih =>
    rw [build_temp_candidates, if_neg (by simp)]
    rw [ih fs]

theorem build_temp_candidates_prunes :
    ∀ (names : List String) (now : Int) (fs : Fs) (n : String) (e : Int),
      n ∈ names → parse_temp_expiry n = some e → e ≤ now →
      n ∉ (build_temp_candidates names true now fs).1
      ∧ fsExists (build_temp_candidates names true now fs).2 ("/" ++ n) = false := by
  intro names
  induction names with
  | nil => intro now fs n e hn; cases hn
  | cons m rest ih =>
    intro now fs n e hn hp he
    rw [build_temp_candidates]
    by_cases hc : (true &&
        (match parse_temp_expiry m with
         | some e' => decide (e' ≤ now)
         | none => false)) = true
    · rw [if_pos hc]
      show n ∉ (build_temp_candidates rest true now
          (if fsExists fs ("/" ++ m) = true then fsRemove fs ("/" ++ m) else fs)).1
        ∧ fsExists (build_temp_candidates rest true now
          (if fsExists fs ("/" ++ m) = true then fsRemove fs ("/" ++ m) else fs)).2
          ("/" ++ n) = false
      by_cases hr : n ∈ rest
      · exact ih now _ n e hr hp he
      · have hnm : n = m := by
          rcases List.mem_cons.mp hn with h | h
          · exact h
          · exact absurd h hr
        refine ⟨fun hmem => hr (build_temp_candidates_subset rest true now _ n hmem), ?_⟩
        rw [hnm]
        have hgone : fsExists (if fsExists fs ("/" ++ m) = true
            then fsRemove fs ("/" ++ m) else fs) ("/" ++ m) = false := by
          by_cases hex : fsExists fs ("/" ++ m) = true
          · rw [if_pos hex]
            exact fsExists_fsRemove_self fs _
          · rw [if_neg hex]
            cases hx : fsExists fs ("/" ++ m) with
            | false => rfl
            | true => exact absurd hx hex
        cases hx : fsExists (build_temp_candidates rest true now
            (if fsExists fs ("/" ++ m) = true then fsRemove fs ("/" ++ m) else fs)).2
            ("/" ++ m) with
        | false => rfl
        | true =>
          have := build_temp_candidates_fs_mono rest true now _ _ hx
          rw [this] at hgone
          exact hgone
    · rw [if_neg hc]
      have hnm : n ≠ m := by
        intro hEq
        apply hc
        rw [← hEq, hp]
        simp [he]
      have hr : n ∈ rest := by
        rcases List.mem_cons.mp hn with h | h
        · exact absurd h hnm
        · exact h
      obtain ⟨ih1, ih2⟩ := ih now fs n e hr hp he
      refine ⟨?_, ih2⟩
      intro hmem
      rcases List.mem_cons.mp hmem with h | h
      · exact hnm h
      · exact ih1 h

/-- C6: during RenderNext selection, when the clock is known-valid
(current time at or past the fixed minimum epoch) every temporary entry
whose embedded expiry is `≤` the current time is deleted from storage and
excluded from the candidate set; when the clock is not known-valid no
temporary entry is deleted or excluded. -/
theorem c6_expiry_pruning (now : Int) (names : List String) (fs : Fs) :
    (kValidTimeThreshold ≤ now →
      ∀ n e, n ∈ names → parse_temp_expiry n = some e → e ≤ now →
        n ∉ (prune_temp_stage now names fs).1
        ∧ fsExists (prune_temp_stage now names fs).2 ("/" ++ n) = false)
    ∧ (now < kValidTimeThreshold → prune_temp_stage now names fs = (names, fs)) := by
  constructor
  · intro hvalid n e hn hp he
    have hv : is_time_valid now = true := decide_eq_true hvalid
    have : prune_temp_stage now names fs = build_temp_candidates names true now fs := by
      rw [prune_temp_stage, hv]
      simp
    rw [this]
    exact build_temp_candidates_prunes names now fs n e hn hp he
  · intro hinvalid
    have hv : is_time_valid now = false := by
      rw [is_time_valid, decide_eq_false_iff_not]
      omega
    rw [prune_temp_stage, hv]
    simp only [Bool.false_eq_true, if_false]
    exact build_temp_candidates_no_cleanup names 0 fs

/-- Witness for C6: with a valid clock the expired entry
`temp/20210101T000001Z__a.g4` (expiry 1609459201 ≤ now = 1609459300) is
deleted and excluded; with an invalid clock (now = 0) nothing happens. -/
theorem c6_expiry_pruning_witness :
    ("temp/20210101T000001Z__a.g4" ∉
        (prune_temp_stage 1609459300 ["temp/20210101T000001Z__a.g4"]
          [("/temp/20210101T000001Z__a.g4", [1])]).1
      ∧ fsExists (prune_temp_stage 1609459300 ["temp/20210101T000001Z__a.g4"]
          [("/temp/20210101T000001Z__a.g4", [1])]).2
          ("/" ++ "temp/20210101T000001Z__a.g4") = false)
    ∧ prune_temp_stage 0 ["temp/20210101T000001Z__a.g4"]
        [("/temp/20210101T000001Z__a.g4", [1])]
        = (["temp/20210101T000001Z__a.g4"], [("/temp/20210101T000001Z__a.g4", [1])]) :=
  ⟨(c6_expiry_pruning 1609459300 ["temp/20210101T000001Z__a.g4"]
      [("/temp/20210101T000001Z__a.g4", [1])]).1 (by decide)
      "temp/20210101T000001Z__a.g4" 1609459201 (by decide) (by decide) (by decide),
    (c6_expiry_pruning 0 ["temp/20210101T000001Z__a.g4"]
      [("/temp/20210101T000001Z__a.g4", [1])]).2 (by decide)⟩

/- ===== C8 / C10 : selection and alternation ===== -/

theorem select_from_list_isSome (names : List String) (mode : SdImageSelectMode)
    (last : String) (rnd : Nat) (h : names ≠ []) :
    (select_from_list names mode last rnd).isSome = true := by
  have hemp : names.isEmpty = false := by
    cases names with
    | nil => exact absurd rfl h
    | cons a as => rfl
  have hlen : 0 < names.length := List.length_pos.mpr h
  have hidx : ∀ idx : Nat, idx < names.length → (names[idx]?).isSome = true := by
    intro idx h2
    rw [List.getElem?_eq_getElem h2]
    rfl
  cases mode with
  | Random =>
    rw [select_from_list, pick_random_from_list, hemp]
    simp only [Bool.false_eq_true, if_false]
    exact hidx _ (Nat.mod_lt _ hlen)
  | Sequential =>
    rw [select_from_list, pick_sequential_from_list, hemp]
    simp only [Bool.false_eq_true, if_false]
    by_cases hl : last ≠ ""
    · rw [if_pos hl]
      cases hfi : first_index_of names last with
      | none => exact hidx 0 hlen
      | some i => exact hidx _ (Nat.mod_lt _ hlen)
    · rw [if_neg hl]
      exact hidx 0 hlen

theorem render_next_commit_bit (mode : SdImageSelectMode) (st : RtcImageState)
    (n : String) (b : Bool) : (render_next_commit mode st n b).last_was_temp = b := by
  cases b <;> cases mode <;> simp [render_next_commit]

theorem render_next_commit_priority (mode : SdImageSelectMode) (st : RtcImageState)
    (n : String) (b : Bool) :
    (render_next_commit mode st n b).priority_image_name = st.priority_image_name := by
  cases b <;> cases mode <;> simp [render_next_commit]

theorem render_next_pick_opposite (mode : SdImageSelectMode) (env : RenderEnv)
    (st : RtcImageState) (perm_names temp_candidates : List String)
    (hperm : perm_names ≠ []) (htemp : temp_candidates ≠ []) :
    ∃ s, render_next_pick mode env st perm_names temp_candidates
      = some (s, !st.last_was_temp) := by
  have hpe : perm_names.isEmpty = false := by
    cases h : perm_names with
    | nil => exact absurd h hperm
    | cons a as => rfl
  have hte : temp_candidates.isEmpty = false := by
    cases h : temp_candidates with
    | nil => exact absurd h htemp
    | cons a as => rfl
  rw [render_next_pick]
  simp only [hpe, hte, Bool.not_false, Bool.and_self, if_true]
  cases hb : st.last_was_temp with
  | false =>
    obtain ⟨s, hs⟩ := Option.isSome_iff_exists.mp
      (select_from_list_isSome temp_candidates mode st.last_temp_name env.rnd htemp)
    simp only [Bool.not_false, Bool.true_and, if_true, hs]
    exact ⟨s, rfl⟩
  | true =>
    obtain ⟨s, hs⟩ := Option.isSome_iff_exists.mp
      (select_from_list_isSome perm_names mode st.last_perm_name env.rnd hperm)
    simp only [Bool.not_true, Bool.false_and, Bool.false_eq_true, if_false, hs]
    exact ⟨s, rfl⟩

theorem render_next_normal_flip (mode : SdImageSelectMode) (env : RenderEnv)
    (st : RtcImageState) (fs : Fs)
    (hperm : perm_list fs ≠ [])
    (htemp : (prune_temp_stage env.now (temp_list fs) fs).1 ≠ [])
    (hok : (image_render_service_render_next_normal mode env st fs).1 = true) :
    (image_render_service_render_next_normal mode env st fs).2.1.last_was_temp
      = !st.last_was_temp := by
  have hpe : (perm_list fs).isEmpty = false := by
    cases h : perm_list fs with
    | nil => exact absurd h hperm
    | cons a as => rfl
  have hte : ((prune_temp_stage env.now (temp_list fs) fs).1).isEmpty = false := by
    cases h : (prune_temp_stage env.now (temp_list fs) fs).1 with
    | nil => exact absurd h htemp
    | cons a as => rfl
  obtain ⟨s, hs⟩ := render_next_pick_opposite mode env st (perm_list fs)
    (prune_temp_stage env.now (temp_list fs) fs).1 hperm htemp
  rw [image_render_service_render_next_normal] at hok ⊢
  simp only [hpe, hte, Bool.not_false, Bool.and_self, Bool.false_eq_true, if_false, hs] at hok ⊢
  cases hro : env.renderOk ("/" ++ s) with
  | false => simp [hro] at hok
  | true => simp [hro, render_next_commit_bit]

theorem render_next_normal_priority (mode : SdImageSelectMode) (env : RenderEnv)
    (st : RtcImageState) (fs : Fs) :
    (image_render_service_render_next_normal mode env st fs).2.1.priority_image_name
      = st.priority_image_name := by
  rw [image_render_service_render_next_normal]
  repeat' split
  all_goals first
  | rfl
  | exact render_next_commit_priority _ _ _ _

/-- C8: across N consecutive successful non-priority RenderNext
selections during which both collections are non-empty (post-pruning),
the persisted `last_was_temp` alternation bit strictly flips on every
selection: each call draws from the collection opposite to the persisted
bit and persists the bit of the collection actually used, which is its
negation. -/
theorem c8_alternation_invariant (mode : SdImageSelectMode) (n : Nat)
    (env : Nat → RenderEnv) (st : Nat → RtcImageState) (fs : Nat → Fs)
    (hpri : ∀ i, i < n → (st i).priority_image_name = "")
    (hperm : ∀ i, i < n → perm_list (fs i) ≠ [])
    (htemp : ∀ i, i < n → (prune_temp_stage (env i).now (temp_list (fs i)) (fs i)).1 ≠ [])
    (hstep : ∀ i, i < n → image_render_service_render_next mode (env i) (st i) (fs i)
        = (true, st (i + 1), fs (i + 1))) :
    ∀ i, i < n → (st (i + 1)).last_was_temp = !(st i).last_was_temp := by
  intro i hi
  have hpr := hpri i hi
  have heq : image_render_service_render_next mode (env i) (st i) (fs i)
      = image_render_service_render_next_normal mode (env i) (st i) (fs i) := by
    rw [image_render_service_render_next]
    simp [hpr]
  have hn : image_render_service_render_next_normal mode (env i) (st i) (fs i)
      = (true, st (i + 1), fs (i + 1)) := by
    rw [← heq]
    exact hstep i hi
  have hflip := render_next_normal_flip mode (env i) (st i) (fs i) (hperm i hi)
    (htemp i hi) (by rw [hn])
  rw [hn] at hflip
  exact hflip

/-- Witness for C8: one successful selection with both collections
non-empty flips the bit from `false` to `true` (the temporary collection,
opposite to the persisted bit, is used). -/
theorem c8_alternation_invariant_witness :
    ((if (1 : Nat) = 0 then (⟨"", "", "", "", false⟩ : RtcImageState)
        else ⟨"", "", "", "temp/x.g4", true⟩).last_was_temp)
      = !((if (0 : Nat) = 0 then (⟨"", "", "", "", false⟩ : RtcImageState)
        else ⟨"", "", "", "temp/x.g4", true⟩).last_was_temp) :=
  c8_alternation_invariant SdImageSelectMode.Random 1
    (fun _ => ⟨0, 0, 0, fun _ => true⟩)
    (fun i => if i = 0 then ⟨"", "", "", "", false⟩ else ⟨"", "", "", "temp/x.g4", true⟩)
    (fun _ => [("/perm/a.g4", [1]), ("/temp/x.g4", [2])])
    (fun i hi => by
      have h0 : i = 0 := by omega
      subst h0
      rfl)
    (fun i hi => by
      have h0 : i = 0 := by omega
      subst h0
      decide)
    (fun i hi => by
      have h0 : i = 0 := by omega
      subst h0
      decide)
    (fun i hi => by
      have h0 : i = 0 := by omega
      subst h0
      decide)
    0 (by decide)

/-- C10: when a RenderNext call finds a priority override set but no file
with that name exists on storage, the override is cleared by that call
and the call behaves exactly as the normal two-collection rotation on the
cleared state; the resulting persisted state carries no priority name, so
the missing name is never retried later. -/
theorem c10_priority_consumed (mode : SdImageSelectMode) (env : RenderEnv)
    (st : RtcImageState) (fs : Fs)
    (hp : st.priority_image_name ≠ "")
    (hmiss : fsExists fs ("/" ++ st.priority_image_name) = false) :
    image_render_service_render_next mode env st fs
      = image_render_service_render_next_normal mode env
          { st with priority_image_name := "" } fs
    ∧ (image_render_service_render_next mode env st fs).2.1.priority_image_name = "" := by
  have h1 : image_render_service_render_next mode env st fs
      = image_render_service_render_next_normal mode env
          { st with priority_image_name := "" } fs := by
    rw [image_render_service_render_next]
    split
    · simp [hmiss]
    · rename_i hcond
      exact absurd (not_not.mp hcond) hp
  refine ⟨h1, ?_⟩
  rw [h1, render_next_normal_priority]

/-- Witness for C10 at a concrete missing priority name. -/
theorem c10_priority_consumed_witness :
    image_render_service_render_next SdImageSelectMode.Random ⟨0, 0, 0, fun _ => true⟩
        ⟨"", "perm/zz.g4", "", "", false⟩ [("/perm/a.g4", [1])]
      = image_render_service_render_next_normal SdImageSelectMode.Random
          ⟨0, 0, 0, fun _ => true⟩ ⟨"", "", "", "", false⟩ [("/perm/a.g4", [1])]
    ∧ (image_render_service_render_next SdImageSelectMode.Random ⟨0, 0, 0, fun _ => true⟩
        ⟨"", "perm/zz.g4", "", "", false⟩
        [("/perm/a.g4", [1])]).2.1.priority_image_name = "" :=
  c10_priority_consumed SdImageSelectMode.Random ⟨0, 0, 0, fun _ => true⟩
    ⟨"", "perm/zz.g4", "", "", false⟩ [("/perm/a.g4", [1])] (by decide) (by decide)

/- ===== Job table lemmas (C2, C5) ===== -/

theorem gc_jobs_locked_length (now : Nat) (jobs : List (Option SdJob)) :
    (gc_jobs_locked now jobs).length = jobs.length := by
  rw [gc_jobs_locked, List.length_map]

theorem gc_keeps_active {now : Nat} {jobs : List (Option SdJob)} {j : SdJob}
    (hm : some j ∈ jobs) (hs : j.state = SdJobState.Queued ∨ j.state = SdJobState.Running) :
    some j ∈ gc_jobs_locked now jobs := by
  rw [gc_jobs_locked]
  have := List.mem_map_of_mem (fun slot =>
    match slot with
    | none => none
    | some j =>
      if j.state = SdJobState.Queued ∨ j.state = SdJobState.Running then some j
      else if u32sub now j.updated_ms < kJobGcMinAgeMs then some j
      else none) hm
  simpa [if_pos hs] using this

theorem gc_keeps_young {now : Nat} {jobs : List (Option SdJob)} {j : SdJob}
    (hm : some j ∈ jobs) (hy : u32sub now j.updated_ms < kJobGcMinAgeMs) :
    some j ∈ gc_jobs_locked now jobs := by
  rw [gc_jobs_locked]
  have := List.mem_map_of_mem (fun slot =>
    match slot with
    | none => none
    | some j =>
      if j.state = SdJobState.Queued ∨ j.state = SdJobState.Running then some j
      else if u32sub now j.updated_ms < kJobGcMinAgeMs then some j
      else none) hm
  by_cases hs : j.state = SdJobState.Queued ∨ j.state = SdJobState.Running
  · simpa [if_pos hs] using this
  · simpa [if_neg hs, if_pos hy] using this

theorem find_free_slot_spec : ∀ (jobs : List (Option SdJob)) (i : Nat),
    find_free_slot jobs = some i → i < jobs.length ∧ jobs[i]? = some none := by
  intro jobs
  induction jobs with
  | nil => intro i h; cases h
  | cons slot rest ih =>
    intro i h
    cases slot with
    | none =>
      rw [find_free_slot] at h
      cases h
      exact ⟨by simp, by simp⟩
    | some j =>
      rw [find_free_slot] at h
      cases hr : find_free_slot rest with
      | none => rw [hr] at h; cases h
      | some k =>
        rw [hr] at h
        simp only [Option.map_some'] at h
        cases h
        obtain ⟨h1, h2⟩ := ih k hr
        exact ⟨by simpa using Nat.succ_lt_succ h1, by simpa using h2⟩

theorem oldest_evictable_aux_spec :
    ∀ (l : List (Option SdJob)) (i : Nat) (best : Option Nat) (bestMs : Nat)
      (P : Nat → Prop),
      (∀ k, best = some k → P k) →
      (∀ n j, l[n]? = some (some j) → j.state ≠ SdJobState.Queued →
        j.state ≠ SdJobState.Running → P (i + n)) →
      ∀ k, oldest_evictable_aux l i best bestMs = some k → P k := by
  intro l
  induction l with
  | nil =>
    intro i best bestMs P hbest _ k h
    exact hbest k h
  | cons slot rest ih =>
    intro i best bestMs P hbest hl k h
    cases slot with
    | none =>
      rw [oldest_evictable_aux] at h
      refine ih (i + 1) best bestMs P hbest ?_ k h
      intro n j hn h1 h2
      have := hl (n + 1) j (by simpa using hn) h1 h2
      simpa [Nat.add_assoc, Nat.add_comm 1 n] using this
    | some j =>
      rw [oldest_evictable_aux] at h
      by_cases hs : j.state = SdJobState.Queued ∨ j.state = SdJobState.Running
      · rw [if_pos hs] at h
        refine ih (i + 1) best bestMs P hbest ?_ k h
        intro n j' hn h1 h2
        have := hl (n + 1) j' (by simpa using hn) h1 h2
        simpa [Nat.add_assoc, Nat.add_comm 1 n] using this
      · rw [if_neg hs] at h
        push_neg at hs
        have hstep : ∀ (b' : Option Nat), (∀ k, b' = some k → P k) →
            oldest_evictable_aux rest (i + 1) b' (if j.updated_ms < bestMs
              then j.updated_ms else bestMs) = some k → P k := by
          intro b' hb' hh
          refine ih (i + 1) b' _ P hb' ?_ k hh
          intro n j' hn h1 h2
          have := hl (n + 1) j' (by simpa using hn) h1 h2
          simpa [Nat.add_assoc, Nat.add_comm 1 n] using this
        by_cases hms : j.updated_ms < bestMs
        · rw [if_pos hms] at h
          refine hstep (some i) ?_ ?_
          · intro k' hk'
            cases hk'
            have := hl 0 j (by simp) hs.1 hs.2
            simpa using this
          · rw [if_pos hms]
            exact h
        · rw [if_neg hms] at h
          refine hstep best hbest ?_
          rw [if_neg hms]
          exact h

theorem oldest_evictable_spec (jobs : List (Option SdJob)) (i : Nat)
    (h : oldest_evictable jobs = some i) :
    i < jobs.length ∧ ∃ ev, jobs[i]? = some (some ev)
      ∧ ev.state ≠ SdJobState.Queued ∧ ev.state ≠ SdJobState.Running := by
  rw [oldest_evictable] at h
  refine oldest_evictable_aux_spec jobs 0 none (2 ^ 32 - 1)
    (fun k => k < jobs.length ∧ ∃ ev, jobs[k]? = some (some ev)
      ∧ ev.state ≠ SdJobState.Queued ∧ ev.state ≠ SdJobState.Running)
    (fun k hk => by cases hk) ?_ i h
  intro n j hn h1 h2
  have hlt : n < jobs.length := by
    by_contra hge
    rw [List.getElem?_eq_none (by omega)] at hn
    cases hn
  exact ⟨by simpa using hlt, j, by simpa using hn, h1, h2⟩

theorem mem_set_of_getElem_ne {α : Type} {l : List α} {a : α}
    (i : Nat) (b : α) (ha : a ∈ l) (hne : l[i]? ≠ some a) : a ∈ l.set i b := by
  obtain ⟨n, hn, rfl⟩ := List.mem_iff_getElem.mp ha
  have hni : n ≠ i := by
    intro hEq
    subst hEq
    exact hne (List.getElem?_eq_getElem hn)
  have hn2 : n < (l.set i b).length := by
    rw [List.length_set]
    exact hn
  refine List.mem_iff_getElem.mpr ⟨n, hn2, ?_⟩
  have h1 : (l.set i b)[n]? = l[n]? :=
    List.getElem?_set_ne (fun h => hni h.symm)
  rw [List.getElem?_eq_getElem hn, List.getElem?_eq_getElem hn2] at h1
  exact Option.some.inj h1

theorem store_job_length (now : Nat) (jobs : List (Option SdJob)) (job : SdJob) :
    (store_job now jobs job).1.length = jobs.length := by
  rw [store_job]
  cases hf : find_free_slot (gc_jobs_locked now jobs) with
  | some i => simp [gc_jobs_locked_length]
  | none =>
    cases ho : oldest_evictable (gc_jobs_locked now jobs) with
    | some i => simp [gc_jobs_locked_length]
    | none => simp [gc_jobs_locked_length]

theorem store_job_some_set (now : Nat) (jobs : List (Option SdJob)) (job : SdJob)
    (i : Nat) (h : (store_job now jobs job).2 = some i) :
    i < jobs.length
    ∧ (store_job now jobs job).1 = (gc_jobs_locked now jobs).set i (some job) := by
  rw [store_job] at h ⊢
  generalize hf : find_free_slot (gc_jobs_locked now jobs) = ff at h ⊢
  cases ff with
  | some k =>
    have hk : k = i := Option.some.inj (h : (some k : Option Nat) = some i)
    subst hk
    obtain ⟨hb, _⟩ := find_free_slot_spec _ _ hf
    rw [gc_jobs_locked_length] at hb
    exact ⟨hb, rfl⟩
  | none =>
    generalize ho : oldest_evictable (gc_jobs_locked now jobs) = oo at h ⊢
    cases oo with
    | some k =>
      have hk : k = i := Option.some.inj (h : (some k : Option Nat) = some i)
      subst hk
      obtain ⟨hb, _⟩ := oldest_evictable_spec _ _ ho
      rw [gc_jobs_locked_length] at hb
      exact ⟨hb, rfl⟩
    | none =>
      exact absurd (h : (none : Option Nat) = some i) (by simp)

theorem store_job_keeps_active (now : Nat) (jobs : List (Option SdJob)) (job : SdJob)
    {j : SdJob} (hm : some j ∈ jobs)
    (hs : j.state = SdJobState.Queued ∨ j.state = SdJobState.Running) :
    some j ∈ (store_job now jobs job).1 := by
  have hgc : some j ∈ gc_jobs_locked now jobs := gc_keeps_active hm hs
  rw [store_job]
  cases hf : find_free_slot (gc_jobs_locked now jobs) with
  | some i =>
    obtain ⟨_, hslot⟩ := find_free_slot_spec _ _ hf
    exact mem_set_of_getElem_ne i (some job) hgc (by rw [hslot]; simp)
  | none =>
    cases ho : oldest_evictable (gc_jobs_locked now jobs) with
    | some i =>
      obtain ⟨_, ev, hslot, hev1, hev2⟩ := oldest_evictable_spec _ _ ho
      refine mem_set_of_getElem_ne i (some job) hgc ?_
      rw [hslot]
      intro hcontra
      have : ev = j := by
        have := Option.some.inj hcontra
        exact Option.some.inj this
      rcases hs with hs | hs
      · exact hev1 (this ▸ hs)
      · exact hev2 (this ▸ hs)
    | none => exact hgc

/- ===== C2 : table occupancy and eviction ===== -/

/-- Counterexample for C2 as frozen: on a full table of 16 `Done` jobs all
updated 100 ms ago (far younger than the 60 s GC age), `store_job` still
evicts one of them (slot 0) to admit the new job.  Eviction therefore has
no minimum-age bar. -/
theorem c2_eviction_age_counterexample :
    (some { sdJobDefault with id := 1, state := SdJobState.Done, updated_ms := 100 }
        ∈ (List.range 16).map (fun k =>
            some { sdJobDefault with id := k + 1, state := SdJobState.Done, updated_ms := 100 }))
    ∧ ({ sdJobDefault with id := 1, state := SdJobState.Done, updated_ms := 100 } : SdJob).state
        = SdJobState.Done
    ∧ u32sub 200 100 < kJobGcMinAgeMs
    ∧ (store_job 200 ((List.range 16).map fun k =>
          some { sdJobDefault with id := k + 1, state := SdJobState.Done, updated_ms := 100 })
        { sdJobDefault with id := 17 }).2 = some 0
    ∧ some { sdJobDefault with id := 1, state := SdJobState.Done, updated_ms := 100 }
        ∉ (store_job 200 ((List.range 16).map fun k =>
            some { sdJobDefault with id := k + 1, state := SdJobState.Done, updated_ms := 100 })
          { sdJobDefault with id := 17 }).1 := by
  decide

/-- C2 (amended): for every `store_job` on a table at its fixed capacity
of 16 slots, occupancy never exceeds 16; a `Queued`/`Running` job present
before the call is never evicted (it is still present after); and the
opportunistic GC only reclaims jobs older than the minimum GC age — a job
younger than 60 s survives `gc_jobs_locked`.  (Eviction of a terminal job
to admit a new one has no age bar: when the table is full the oldest
Done/Error job is evicted regardless of age, as the counterexample
shows.) -/
theorem c2_table_invariant (now : Nat) (jobs : List (Option SdJob)) (job : SdJob)
    (hlen : jobs.length = kMaxJobs) :
    count_some (store_job now jobs job).1 ≤ kMaxJobs
    ∧ (∀ j, some j ∈ jobs →
        (j.state = SdJobState.Queued ∨ j.state = SdJobState.Running) →
        some j ∈ (store_job now jobs job).1)
    ∧ (∀ j, some j ∈ jobs → u32sub now j.updated_ms < kJobGcMinAgeMs →
        some j ∈ gc_jobs_locked now jobs) := by
  refine ⟨?_, ?_, ?_⟩
  · calc count_some (store_job now jobs job).1
        ≤ (store_job now jobs job).1.length := List.countP_le_length _
      _ = jobs.length := store_job_length now jobs job
      _ = kMaxJobs := hlen
  · intro j hm hs
    exact store_job_keeps_active now jobs job hm hs
  · intro j hm hy
    exact gc_keeps_young hm hy

/-- Witness for C2 (amended) on a concrete table: a Running job in a full
table survives the store that evicts a terminal slot. -/
theorem c2_table_invariant_witness :
    count_some (store_job 200
        (some { sdJobDefault with id := 1, state := SdJobState.Running, updated_ms := 100 }
          :: (List.range 15).map (fun k =>
            some { sdJobDefault with id := k + 2, state := SdJobState.Done, updated_ms := 100 }))
        { sdJobDefault with id := 17 }).1 ≤ kMaxJobs
    ∧ some { sdJobDefault with id := 1, state := SdJobState.Running, updated_ms := 100 }
        ∈ (store_job 200
          (some { sdJobDefault with id := 1, state := SdJobState.Running, updated_ms := 100 }
            :: (List.range 15).map (fun k =>
              some { sdJobDefault with id := k + 2, state := SdJobState.Done, updated_ms := 100 }))
          { sdJobDefault with id := 17 }).1 := by
  have h := c2_table_invariant 200
    (some { sdJobDefault with id := 1, state := SdJobState.Running, updated_ms := 100 }
      :: (List.range 15).map (fun k =>
        some { sdJobDefault with id := k + 2, state := SdJobState.Done, updated_ms := 100 }))
    { sdJobDefault with id := 17 } (by decide)
  exact ⟨h.1, h.2.1 _ (by decide) (Or.inr rfl)⟩

/- ===== C5 : queue-full enqueue ===== -/

/-- C5: when the job was stored in the table but the non-blocking send
into the bounded queue (depth 8) fails because the queue is full, the job
is synchronously marked Error with message "Queue full", its (nonzero) id
is still returned, and the queue is unchanged — the job's id is never in
the queue, so the worker (which only receives jobs through the queue)
never dequeues or executes it. -/
theorem c5_queue_full_enqueue (now : Nat) (jobs : List (Option SdJob))
    (queue : List Nat) (job : SdJob) (i : Nat)
    (hstore : (store_job now jobs job).2 = some i)
    (hqfull : kJobQueueDepth ≤ queue.length)
    (hid : job.id ≠ 0)
    (hfresh : job.id ∉ queue) :
    (enqueue_job now true jobs queue job).retId = job.id
    ∧ (enqueue_job now true jobs queue job).retId ≠ 0
    ∧ some (mark_queue_full now job) ∈ (enqueue_job now true jobs queue job).jobs
    ∧ (mark_queue_full now job).state = SdJobState.Error
    ∧ (mark_queue_full now job).message = "Queue full"
    ∧ (enqueue_job now true jobs queue job).queue = queue
    ∧ job.id ∉ (enqueue_job now true jobs queue job).queue := by
  obtain ⟨hb, hset⟩ := store_job_some_set now jobs job i hstore
  have hb1 : i < (gc_jobs_locked now jobs).length := by
    rw [gc_jobs_locked_length]
    exact hb
  have henq : enqueue_job now true jobs queue job
      = ⟨(store_job now jobs job).1.set i (some (mark_queue_full now job)),
          queue, job.id⟩ := by
    rw [enqueue_job]
    generalize hsj : store_job now jobs job = sj at hstore ⊢
    obtain ⟨jobs1, idx⟩ := sj
    have : idx = some i := hstore
    subst this
    simp only [Bool.not_true, Bool.false_eq_true, if_false]
    rw [if_pos hqfull]
  rw [henq]
  refine ⟨rfl, hid, ?_, rfl, rfl, rfl, hfresh⟩
  have hb2 : i < (store_job now jobs job).1.length := by
    rw [store_job_length]
    exact hb
  exact List.mem_set (store_job now jobs job).1 i hb2 (some (mark_queue_full now job))

/-- Witness for C5: with one free table slot and a full 8-deep queue, the
ninth job gets id 9, is marked Error "Queue full", and never enters the
queue. -/
theorem c5_queue_full_enqueue_witness :
    (enqueue_job 5 true [none] [1, 2, 3, 4, 5, 6, 7, 8]
        { sdJobDefault with id := 9 }).retId = ({ sdJobDefault with id := 9 } : SdJob).id
    ∧ (enqueue_job 5 true [none] [1, 2, 3, 4, 5, 6, 7, 8]
        { sdJobDefault with id := 9 }).retId ≠ 0
    ∧ some (mark_queue_full 5 { sdJobDefault with id := 9 })
        ∈ (enqueue_job 5 true [none] [1, 2, 3, 4, 5, 6, 7, 8]
          { sdJobDefault with id := 9 }).jobs
    ∧ (mark_queue_full 5 { sdJobDefault with id := 9 }).state = SdJobState.Error
    ∧ (mark_queue_full 5 { sdJobDefault with id := 9 }).message = "Queue full"
    ∧ (enqueue_job 5 true [none] [1, 2, 3, 4, 5, 6, 7, 8]
        { sdJobDefault with id := 9 }).queue = [1, 2, 3, 4, 5, 6, 7, 8]
    ∧ ({ sdJobDefault with id := 9 } : SdJob).id
        ∉ (enqueue_job 5 true [none] [1, 2, 3, 4, 5, 6, 7, 8]
          { sdJobDefault with id := 9 }).queue :=
  c5_queue_full_enqueue 5 [none] [1, 2, 3, 4, 5, 6, 7, 8]
    { sdJobDefault with id := 9 } 0 (by decide) (by decide) (by decide) (by decide)

/- ===== C3 : buffer ownership across the worker ===== -/

theorem write_upload_to_sd_buffer (env : UploadEnv) (job : SdJob) (fs : Fs) :
    (write_upload_to_sd env job fs).job.buffer = job.buffer := by
  rw [write_upload_to_sd]
  cases h : job.buffer with
  | none => exact h
  | some payload =>
    repeat' split
    all_goals simp_all
    all_goals repeat' split
    all_goals simp_all

theorem worker_dispatch_buffer (env : WorkerEnv) (fs : Fs) (jobR : SdJob) :
    (worker_dispatch env fs jobR).2.1.buffer = jobR.buffer := by
  rw [worker_dispatch]
  cases htype : jobR.type <;> simp only [write_upload_to_sd_buffer]

/-- Counterexample for C3 as frozen: an Upload job carrying an owned
buffer that fails because the SD medium cannot be mounted reaches the
terminal Error state, but the worker does NOT free its buffer on that
path (`continue` skips the free); the buffer is still owned by the job
afterwards. -/
theorem c3_mount_failure_counterexample :
    (worker_step ⟨false, 5, ⟨true, true, true, 0, true⟩, true⟩ []
        { sdJobDefault with type := SdJobType.Upload, buffer := some [7] }).2.2 = false
    ∧ (worker_step ⟨false, 5, ⟨true, true, true, 0, true⟩, true⟩ []
        { sdJobDefault with type := SdJobType.Upload, buffer := some [7] }).1.state
        = SdJobState.Error
    ∧ (worker_step ⟨false, 5, ⟨true, true, true, 0, true⟩, true⟩ []
        { sdJobDefault with type := SdJobType.Upload, buffer := some [7] }).1.buffer.isSome
        = true := by
  decide

/-- C3 (amended): a job's owned buffer is freed exactly once over the
job's lifecycle, but not always by the worker.  When the medium mounts,
the worker frees the buffer after the job reaches a terminal state,
regardless of success; when the mount fails, the worker abandons the job
with the buffer still owned, and the single free is performed later by
`free_job` (at GC/eviction), which frees exactly when the pointer is
non-null.  In both cases the total number of frees is one. -/
theorem c3_buffer_freed_once (env : WorkerEnv) (fs : Fs) (job : SdJob)
    (hbuf : job.buffer.isSome = true) :
    ((worker_step env fs job).1.state = SdJobState.Done
      ∨ (worker_step env fs job).1.state = SdJobState.Error)
    ∧ (env.mountOk = true → (worker_step env fs job).2.2 = true
        ∧ (worker_step env fs job).1.buffer = none)
    ∧ (env.mountOk = false → (worker_step env fs job).2.2 = false
        ∧ (worker_step env fs job).1.buffer.isSome = true)
    ∧ (if (worker_step env fs job).2.2 then 1 else 0)
        + (if free_job_frees (worker_step env fs job).1 then 1 else 0) = 1 := by
  cases hm : env.mountOk with
  | false =>
    have hws : worker_step env fs job
        = ({ job with
              state := SdJobState.Error
              success := false
              message := "SD init failed"
              updated_ms := env.now }, fs, false) := by
      rw [worker_step]
      simp [hm]
    rw [hws]
    refine ⟨Or.inr rfl, fun h => by simp at h, fun _ => ⟨rfl, ?_⟩, ?_⟩
    · simpa using hbuf
    · simp [free_job_frees, hbuf]
  | true =>
    have hjb : (worker_dispatch env fs
        { job with state := SdJobState.Running, updated_ms := env.now }).2.1.buffer
        = job.buffer := worker_dispatch_buffer env fs _
    have hws : worker_step env fs job
        = ({ { (worker_dispatch env fs
              { job with state := SdJobState.Running, updated_ms := env.now }).2.1 with
              success := (worker_dispatch env fs
                { job with state := SdJobState.Running, updated_ms := env.now }).1
              state := if (worker_dispatch env fs
                  { job with state := SdJobState.Running, updated_ms := env.now }).1
                then SdJobState.Done else SdJobState.Error
              updated_ms := env.now } with buffer := none },
            (worker_dispatch env fs
              { job with state := SdJobState.Running, updated_ms := env.now }).2.2,
            true) := by
      rw [worker_step]
      simp only [hm, Bool.not_true, Bool.false_eq_true, if_false]
      rw [if_pos (by simpa [hjb] using hbuf)]
    rw [hws]
    refine ⟨?_, fun _ => ⟨rfl, rfl⟩, fun h => by simp at h, ?_⟩
    · cases hok : (worker_dispatch env fs
          { job with state := SdJobState.Running, updated_ms := env.now }).1 with
      | false => right; simp [hok]
      | true => left; simp [hok]
    · simp [free_job_frees]

/-- Witness for C3 (amended): a mounted worker iteration on an Upload job
with an owned buffer frees it exactly once. -/
theorem c3_buffer_freed_once_witness :
    ((worker_step ⟨true, 5, ⟨true, true, true, 3, true⟩, true⟩ []
        { sdJobDefault with name := "a.g4", type := SdJobType.Upload, buffer := some [1, 2, 3] }).1.state = SdJobState.Done
      ∨ (worker_step ⟨true, 5, ⟨true, true, true, 3, true⟩, true⟩ []
        { sdJobDefault with name := "a.g4", type := SdJobType.Upload, buffer := some [1, 2, 3] }).1.state = SdJobState.Error)
    ∧ (worker_step ⟨true, 5, ⟨true, true, true, 3, true⟩, true⟩ []
        { sdJobDefault with name := "a.g4", type := SdJobType.Upload, buffer := some [1, 2, 3] }).2.2 = true :=
  have h := c3_buffer_freed_once ⟨true, 5, ⟨true, true, true, 3, true⟩, true⟩ []
    { sdJobDefault with name := "a.g4", type := SdJobType.Upload, buffer := some [1, 2, 3] } (by decide)
  ⟨h.1, (h.2.1 rfl).1⟩

/- ===== C4 : atomic upload write ===== -/

theorem target_ne_tmp (t : String) : t ≠ t ++ ".tmp" := by
  intro h
  have hlen := congrArg String.length h
  rw [String.length_append] at hlen
  simp at hlen
  exact absurd hlen (by decide)

theorem write_upload_open_fail (env : UploadEnv) (job : SdJob) (fs : Fs)
    (payload : List Nat) (hbuf : job.buffer = some payload) (hne : payload ≠ [])
    (hvalid : is_valid_g4_name job.name = true)
    (hdir : env.dirExists = true ∨ env.mkdirOk = true)
    (ho : env.openOk = false) :
    write_upload_to_sd env job fs
      = ⟨false, { job with message := "Open failed" },
          if fsExists fs (("/" ++ job.name) ++ ".tmp") = true
          then fsRemove fs (("/" ++ job.name) ++ ".tmp") else fs⟩ := by
  have hneL : ¬ payload.length = 0 := fun h0 => hne (List.length_eq_zero.mp h0)
  rw [write_upload_to_sd, hbuf]
  rcases hdir with h | h <;> simp [hneL, hvalid, h, ho]

theorem write_upload_short_write (env : UploadEnv) (job : SdJob) (fs : Fs)
    (payload : List Nat) (hbuf : job.buffer = some payload) (hne : payload ≠ [])
    (hvalid : is_valid_g4_name job.name = true)
    (hdir : env.dirExists = true ∨ env.mkdirOk = true)
    (ho : env.openOk = true) (hw : env.writeReturn < payload.length) :
    write_upload_to_sd env job fs
      = ⟨false, { job with bytes := env.writeReturn, message := "Write failed" },
          fsRemove
            (fsInsert
              (if fsExists fs (("/" ++ job.name) ++ ".tmp") = true
               then fsRemove fs (("/" ++ job.name) ++ ".tmp") else fs)
              (("/" ++ job.name) ++ ".tmp") (payload.take env.writeReturn))
            (("/" ++ job.name) ++ ".tmp")⟩ := by
  have hneL : ¬ payload.length = 0 := fun h0 => hne (List.length_eq_zero.mp h0)
  have hmin : min env.writeReturn payload.length = env.writeReturn :=
    Nat.min_eq_left (Nat.le_of_lt hw)
  have hnem : ¬ min env.writeReturn payload.length = payload.length := by omega
  have hnem2 : ¬ env.writeReturn = payload.length := Nat.ne_of_lt hw
  rw [write_upload_to_sd, hbuf]
  rcases hdir with h | h <;> simp [hneL, hvalid, h, ho, hnem, hnem2, hmin]

theorem write_upload_rename_fail (env : UploadEnv) (job : SdJob) (fs : Fs)
    (payload : List Nat) (hbuf : job.buffer = some payload) (hne : payload ≠ [])
    (hvalid : is_valid_g4_name job.name = true)
    (hdir : env.dirExists = true ∨ env.mkdirOk = true)
    (ho : env.openOk = true) (hw : payload.length ≤ env.writeReturn)
    (hr : env.renameOk = false) :
    write_upload_to_sd env job fs
      = ⟨false, { job with bytes := payload.length, message := "Rename failed" },
          fsRemove
            (if fsExists
                (fsInsert
                  (if fsExists fs (("/" ++ job.name) ++ ".tmp") = true
                   then fsRemove fs (("/" ++ job.name) ++ ".tmp") else fs)
                  (("/" ++ job.name) ++ ".tmp") payload)
                ("/" ++ job.name) = true
             then fsRemove
                (fsInsert
                  (if fsExists fs (("/" ++ job.name) ++ ".tmp") = true
                   then fsRemove fs (("/" ++ job.name) ++ ".tmp") else fs)
                  (("/" ++ job.name) ++ ".tmp") payload)
                ("/" ++ job.name)
             else fsInsert
                (if fsExists fs (("/" ++ job.name) ++ ".tmp") = true
                 then fsRemove fs (("/" ++ job.name) ++ ".tmp") else fs)
                (("/" ++ job.name) ++ ".tmp") payload)
            (("/" ++ job.name) ++ ".tmp")⟩ := by
  have hneL : ¬ payload.length = 0 := fun h0 => hne (List.length_eq_zero.mp h0)
  have hmin : min env.writeReturn payload.length = payload.length := Nat.min_eq_right hw
  rw [write_upload_to_sd, hbuf]
  rcases hdir with h | h <;> simp [hneL, hvalid, h, ho, hmin, hr]

theorem write_upload_commit (env : UploadEnv) (job : SdJob) (fs : Fs)
    (payload : List Nat) (hbuf : job.buffer = some payload) (hne : payload ≠ [])
    (hvalid : is_valid_g4_name job.name = true)
    (hdir : env.dirExists = true ∨ env.mkdirOk = true)
    (ho : env.openOk = true) (hw : payload.length ≤ env.writeReturn)
    (hr : env.renameOk = true) :
    write_upload_to_sd env job fs
      = ⟨true, { job with bytes := payload.length },
          fsInsert
            (fsRemove
              (if fsExists
                  (fsInsert
                    (if fsExists fs (("/" ++ job.name) ++ ".tmp") = true
                     then fsRemove fs (("/" ++ job.name) ++ ".tmp") else fs)
                    (("/" ++ job.name) ++ ".tmp") payload)
                  ("/" ++ job.name) = true
               then fsRemove
                  (fsInsert
                    (if fsExists fs (("/" ++ job.name) ++ ".tmp") = true
                     then fsRemove fs (("/" ++ job.name) ++ ".tmp") else fs)
                    (("/" ++ job.name) ++ ".tmp") payload)
                  ("/" ++ job.name)
               else fsInsert
                  (if fsExists fs (("/" ++ job.name) ++ ".tmp") = true
                   then fsRemove fs (("/" ++ job.name) ++ ".tmp") else fs)
                  (("/" ++ job.name) ++ ".tmp") payload)
              (("/" ++ job.name) ++ ".tmp"))
            ("/" ++ job.name) payload⟩ := by
  have hneL : ¬ payload.length = 0 := fun h0 => hne (List.length_eq_zero.mp h0)
  have hmin : min env.writeReturn payload.length = payload.length := Nat.min_eq_right hw
  rw [write_upload_to_sd, hbuf]
  rcases hdir with h | h <;> simp [hneL, hvalid, h, ho, hmin, hr]

theorem bool_eq_false_of_not_true {b : Bool} (h : ¬ b = true) : b = false := by
  cases b with
  | false => rfl
  | true => exact absurd rfl h

theorem fsGet_condRemove_ne (fs : Fs) (p q : String) (h : q ≠ p) :
    fsGet (if fsExists fs p = true then fsRemove fs p else fs) q = fsGet fs q := by
  by_cases he : fsExists fs p = true
  · rw [if_pos he, fsGet_fsRemove_ne fs p q h]
  · rw [if_neg he]

theorem fsExists_condRemove_self (fs : Fs) (p : String) :
    fsExists (if fsExists fs p = true then fsRemove fs p else fs) p = false := by
  by_cases he : fsExists fs p = true
  · rw [if_pos he]
    exact fsExists_fsRemove_self fs p
  · rw [if_neg he]
    exact bool_eq_false_of_not_true he

theorem fsGet_eq_none_of_not_exists {fs : Fs} {p : String}
    (h : fsExists fs p = false) : fsGet fs p = none := by
  cases hx : fsGet fs p with
  | none => rfl
  | some c =>
    rw [fsExists, hx] at h
    cases h

/-- C4: for every Upload write attempt (valid name, non-empty payload,
directory available), if the open fails or the SD driver accepts fewer
bytes than the payload size, the write fails, the temporary sibling file
is removed, and the target path keeps its prior content; and in every
case the target path ends up holding its prior content, nothing, or the
full payload — never a partial version.  (The rename-failure path leaves
the target absent, not partial.) -/
theorem c4_atomic_upload (env : UploadEnv) (job : SdJob) (fs : Fs) (payload : List Nat)
    (hbuf : job.buffer = some payload) (hne : payload ≠ [])
    (hvalid : is_valid_g4_name job.name = true)
    (hdir : env.dirExists = true ∨ env.mkdirOk = true) :
    ((env.openOk = false ∨ env.writeReturn < payload.length) →
      (write_upload_to_sd env job fs).ok = false
      ∧ fsGet (write_upload_to_sd env job fs).fs ("/" ++ job.name)
          = fsGet fs ("/" ++ job.name)
      ∧ fsExists (write_upload_to_sd env job fs).fs (("/" ++ job.name) ++ ".tmp") = false)
    ∧ (fsGet (write_upload_to_sd env job fs).fs ("/" ++ job.name)
          = fsGet fs ("/" ++ job.name)
        ∨ fsGet (write_upload_to_sd env job fs).fs ("/" ++ job.name) = none
        ∨ fsGet (write_upload_to_sd env job fs).fs ("/" ++ job.name) = some payload) := by
  have hTne : ("/" ++ job.name) ≠ ("/" ++ job.name) ++ ".tmp" := target_ne_tmp _
  constructor
  · intro hfail
    by_cases ho : env.openOk = true
    · have hw : env.writeReturn < payload.length := by
        rcases hfail with h | h
        · rw [ho] at h
          exact absurd h (by simp)
        · exact h
      rw [write_upload_short_write env job fs payload hbuf hne hvalid hdir ho hw]
      refine ⟨rfl, ?_, ?_⟩
      · rw [fsGet_fsRemove_ne _ _ _ hTne, fsGet_fsInsert_ne _ _ _ _ hTne,
          fsGet_condRemove_ne fs _ _ hTne]
      · exact fsExists_fsRemove_self _ _
    · rw [write_upload_open_fail env job fs payload hbuf hne hvalid hdir
        (bool_eq_false_of_not_true ho)]
      exact ⟨rfl, fsGet_condRemove_ne fs _ _ hTne, fsExists_condRemove_self fs _⟩
  · by_cases ho : env.openOk = true
    · by_cases hw : env.writeReturn < payload.length
      · left
        rw [write_upload_short_write env job fs payload hbuf hne hvalid hdir ho hw]
        rw [fsGet_fsRemove_ne _ _ _ hTne, fsGet_fsInsert_ne _ _ _ _ hTne,
          fsGet_condRemove_ne fs _ _ hTne]
      · have hw2 : payload.length ≤ env.writeReturn := by omega
        by_cases hr : env.renameOk = true
        · right
          right
          rw [write_upload_commit env job fs payload hbuf hne hvalid hdir ho hw2 hr]
          exact fsGet_fsInsert_self _ _ _
        · right
          left
          rw [write_upload_rename_fail env job fs payload hbuf hne hvalid hdir ho hw2
            (bool_eq_false_of_not_true hr)]
          rw [fsGet_fsRemove_ne _ _ _ hTne]
          by_cases hex : fsExists
              (fsInsert
                (if fsExists fs (("/" ++ job.name) ++ ".tmp") = true
                 then fsRemove fs (("/" ++ job.name) ++ ".tmp") else fs)
                (("/" ++ job.name) ++ ".tmp") payload)
              ("/" ++ job.name) = true
          · rw [if_pos hex]
            exact fsGet_fsRemove_self _ _
          · rw [if_neg hex]
            exact fsGet_eq_none_of_not_exists (bool_eq_false_of_not_true hex)
    · left
      rw [write_upload_open_fail env job fs payload hbuf hne hvalid hdir
        (bool_eq_false_of_not_true ho)]
      exact fsGet_condRemove_ne fs _ _ hTne

/-- Witness for C4: a short write (1 of 3 bytes) on a concrete volume
fails, removes the temporary, and leaves the previous target version
intact. -/
theorem c4_atomic_upload_witness :
    ((write_upload_to_sd ⟨true, true, true, 1, true⟩
        { sdJobDefault with name := "queue-permanent/a.g4", buffer := some [1, 2, 3] }
        [("/queue-permanent/a.g4", [9])]).ok = false
      ∧ fsGet (write_upload_to_sd ⟨true, true, true, 1, true⟩
          { sdJobDefault with name := "queue-permanent/a.g4", buffer := some [1, 2, 3] }
          [("/queue-permanent/a.g4", [9])]).fs
          ("/" ++ ({ sdJobDefault with name := "queue-permanent/a.g4", buffer := some [1, 2, 3] } : SdJob).name)
        = fsGet [("/queue-permanent/a.g4", [9])]
          ("/" ++ ({ sdJobDefault with name := "queue-permanent/a.g4", buffer := some [1, 2, 3] } : SdJob).name)
      ∧ fsExists (write_upload_to_sd ⟨true, true, true, 1, true⟩
          { sdJobDefault with name := "queue-permanent/a.g4", buffer := some [1, 2, 3] }
          [("/queue-permanent/a.g4", [9])]).fs
          (("/" ++ ({ sdJobDefault with name := "queue-permanent/a.g4", buffer := some [1, 2, 3] } : SdJob).name) ++ ".tmp") = false)
    ∧ (fsGet (write_upload_to_sd ⟨true, true, true, 1, true⟩
          { sdJobDefault with name := "queue-permanent/a.g4", buffer := some [1, 2, 3] }
          [("/queue-permanent/a.g4", [9])]).fs
          ("/" ++ ({ sdJobDefault with name := "queue-permanent/a.g4", buffer := some [1, 2, 3] } : SdJob).name)
        = fsGet [("/queue-permanent/a.g4", [9])]
          ("/" ++ ({ sdJobDefault with name := "queue-permanent/a.g4", buffer := some [1, 2, 3] } : SdJob).name)
      ∨ fsGet (write_upload_to_sd ⟨true, true, true, 1, true⟩
          { sdJobDefault with name := "queue-permanent/a.g4", buffer := some [1, 2, 3] }
          [("/queue-permanent/a.g4", [9])]).fs
          ("/" ++ ({ sdJobDefault with name := "queue-permanent/a.g4", buffer := some [1, 2, 3] } : SdJob).name) = none
      ∨ fsGet (write_upload_to_sd ⟨true, true, true, 1, true⟩
          { sdJobDefault with name := "queue-permanent/a.g4", buffer := some [1, 2, 3] }
          [("/queue-permanent/a.g4", [9])]).fs
          ("/" ++ ({ sdJobDefault with name := "queue-permanent/a.g4", buffer := some [1, 2, 3] } : SdJob).name) = some [1, 2, 3]) :=
  have h := c4_atomic_upload ⟨true, true, true, 1, true⟩
    { sdJobDefault with name := "queue-permanent/a.g4", buffer := some [1, 2, 3] }
    [("/queue-permanent/a.g4", [9])] [1, 2, 3] (by decide) (by decide) (by decide)
    (Or.inl rfl)
  ⟨h.1 (Or.inr (by decide)), h.2⟩

/- ===== C1 : SyncFromAzure preconditions ===== -/

/-- Counterexample for C1 as frozen: with the SAS URL configured, WiFi
connected and the SAS parsing fine but the wall clock NOT valid
(`time_utils::is_time_valid()` false), the job still deletes every local
managed file before it checks the clock, then aborts: a failing
precondition with a local mutation. -/
theorem c1_preconditions_counterexample :
    is_time_valid 0 = false
    ∧ (handle_sync_from_azure
        ⟨true, true, some [], some [], some [], some [], 0, fun _ => none,
          fun _ => ⟨true, true, true, 0, true⟩⟩
        "https://sas" [("/queue-permanent/a.g4", [1])]).ok = false
    ∧ (handle_sync_from_azure
        ⟨true, true, some [], some [], some [], some [], 0, fun _ => none,
          fun _ => ⟨true, true, true, 0, true⟩⟩
        "https://sas" [("/queue-permanent/a.g4", [1])]).fs = []
    ∧ (handle_sync_from_azure
        ⟨true, true, some [], some [], some [], some [], 0, fun _ => none,
          fun _ => ⟨true, true, true, 0, true⟩⟩
        "https://sas" [("/queue-permanent/a.g4", [1])]).fs
        ≠ [("/queue-permanent/a.g4", [1])] := by
  refine ⟨rfl, rfl, rfl, ?_⟩
  decide

/-- C1 (amended): the SAS-URL-configured and network-session
preconditions (including SAS parsing) are checked before any destructive
action, and failing any of them aborts the job with no local mutation;
the wall-clock validity precondition, however, is only checked after
`delete_all_g4_files` has run, so a job failing it aborts with every
local managed file already deleted. -/
theorem c1_sync_preconditions (env : AzureEnv) (sas : String) (fs : Fs) :
    ((sas = "" ∨ env.wifiConnected = false ∨ env.sasParseOk = false) →
      (handle_sync_from_azure env sas fs).ok = false
      ∧ (handle_sync_from_azure env sas fs).fs = fs)
    ∧ (sas ≠ "" → env.wifiConnected = true → env.sasParseOk = true →
        is_time_valid env.now = false →
      (handle_sync_from_azure env sas fs).ok = false
      ∧ (handle_sync_from_azure env sas fs).fs = delete_all_g4_files fs) := by
  constructor
  · intro h
    rw [handle_sync_from_azure]
    by_cases hs : sas = ""
    · rw [if_pos hs]
      exact ⟨rfl, rfl⟩
    · rw [if_neg hs]
      by_cases hw : env.wifiConnected = false
      · simp [hw]
      · have hw2 : env.wifiConnected = true := by
          cases hx : env.wifiConnected with
          | true => rfl
          | false => exact absurd hx hw
        have hp : env.sasParseOk = false := by
          rcases h with h | h | h
          · exact absurd h hs
          · exact absurd h hw
          · exact h
        simp [hw2, hp]
  · intro hs hw hp ht
    rw [handle_sync_from_azure, if_neg hs]
    simp [hw, hp, ht]

/-- Witness for C1 (amended): a disconnected-WiFi call leaves the volume
untouched; a valid-preconditions call with an invalid clock aborts with
the volume already wiped. -/
theorem c1_sync_preconditions_witness :
    ((handle_sync_from_azure
        ⟨false, true, some [], some [], some [], some [], 0, fun _ => none,
          fun _ => ⟨true, true, true, 0, true⟩⟩
        "https://sas" [("/queue-permanent/a.g4", [1])]).ok = false
      ∧ (handle_sync_from_azure
        ⟨false, true, some [], some [], some [], some [], 0, fun _ => none,
          fun _ => ⟨true, true, true, 0, true⟩⟩
        "https://sas" [("/queue-permanent/a.g4", [1])]).fs
        = [("/queue-permanent/a.g4", [1])])
    ∧ ((handle_sync_from_azure
        ⟨true, true, some [], some [], some [], some [], 0, fun _ => none,
          fun _ => ⟨true, true, true, 0, true⟩⟩
        "https://sas" [("/queue-permanent/a.g4", [1])]).ok = false
      ∧ (handle_sync_from_azure
        ⟨true, true, some [], some [], some [], some [], 0, fun _ => none,
          fun _ => ⟨true, true, true, 0, true⟩⟩
        "https://sas" [("/queue-permanent/a.g4", [1])]).fs
        = delete_all_g4_files [("/queue-permanent/a.g4", [1])]) :=
  ⟨(c1_sync_preconditions
      ⟨false, true, some [], some [], some [], some [], 0, fun _ => none,
        fun _ => ⟨true, true, true, 0, true⟩⟩
      "https://sas" [("/queue-permanent/a.g4", [1])]).1 (Or.inr (Or.inl rfl)),
    (c1_sync_preconditions
      ⟨true, true, some [], some [], some [], some [], 0, fun _ => none,
        fun _ => ⟨true, true, true, 0, true⟩⟩
      "https://sas" [("/queue-permanent/a.g4", [1])]).2 (by decide) rfl rfl rfl⟩

/- ===== C9 : reconciliation skips already-queued entries ===== -/

theorem download_and_write_downloads (env : AzureEnv) (acc : SyncAccum) (t : SyncTarget) :
    (download_and_write env acc t).downloads = acc.downloads ++ [t.blob_name] := by
  rw [download_and_write]
  repeat' split
  all_goals simp [apply_ite SyncAccum.downloads]

theorem sync_fold_downloads (env : AzureEnv) :
    ∀ (targets : List SyncTarget) (acc : SyncAccum),
      (targets.foldl (download_and_write env) acc).downloads
        = acc.downloads ++ targets.map (fun t => t.blob_name) := by
  intro targets
  induction targets with
  | nil => intro acc; simp
  | cons t rest ih =>
    intro acc
    rw [List.foldl_cons, ih, download_and_write_downloads]
    simp

theorem download_and_write_writes_sub (env : AzureEnv) (acc : SyncAccum) (t : SyncTarget) :
    (download_and_write env acc t).writes = acc.writes
    ∨ (download_and_write env acc t).writes = acc.writes ++ [t.queue_name] := by
  rw [download_and_write]
  repeat' split
  all_goals first
  | exact Or.inl rfl
  | exact Or.inr rfl
  | (right
     simp [apply_ite SyncAccum.writes])

theorem sync_fold_writes (env : AzureEnv) :
    ∀ (targets : List SyncTarget) (acc : SyncAccum) (x : String),
      x ∈ (targets.foldl (download_and_write env) acc).writes →
      x ∈ acc.writes ∨ ∃ t, t ∈ targets ∧ x = t.queue_name := by
  intro targets
  induction targets with
  | nil => intro acc x hx; exact Or.inl hx
  | cons t rest ih =>
    intro acc x hx
    rw [List.foldl_cons] at hx
    rcases ih (download_and_write env acc t) x hx with h | h
    · rcases download_and_write_writes_sub env acc t with he | he
      · rw [he] at h
        exact Or.inl h
      · rw [he] at h
        rcases List.mem_append.mp h with h | h
        · exact Or.inl h
        · exact Or.inr ⟨t, List.mem_cons_self t rest, by simpa using h⟩
    · obtain ⟨t', ht', hq⟩ := h
      exact Or.inr ⟨t', List.mem_cons_of_mem t ht', hq⟩

theorem add_target_spec (queue_names : List String) (now : Int) (acc : List SyncTarget)
    (allName : String) (isTemp : Bool) (t : SyncTarget)
    (ht : t ∈ add_target queue_names now acc allName isTemp) :
    t ∈ acc ∨ (derive_queue_name_from_all_blob t.blob_name = some t.queue_name
      ∧ binSearch queue_names t.queue_name = false) := by
  rw [add_target] at ht
  generalize hd : derive_queue_name_from_all_blob allName = d at ht
  cases d with
  | none => exact Or.inl ht
  | some q =>
    have ht2 : t ∈ (if binSearch queue_names q = true then acc
        else if isTemp = true then
          (match parse_all_temp_expiry allName with
           | some e => if decide (e ≤ now) = true then acc
               else acc ++ [(⟨allName, q, true⟩ : SyncTarget)]
           | none => acc ++ [(⟨allName, q, true⟩ : SyncTarget)])
        else acc ++ [(⟨allName, q, false⟩ : SyncTarget)]) := ht
    by_cases hb : binSearch queue_names q = true
    · rw [if_pos hb] at ht2
      exact Or.inl ht2
    · rw [if_neg hb] at ht2
      have hbf : binSearch queue_names q = false := bool_eq_false_of_not_true hb
      have happ : t ∈ acc ∨ t = (⟨allName, q, isTemp⟩ : SyncTarget) := by
        cases isTemp with
        | true =>
          rw [if_pos rfl] at ht2
          generalize hp : parse_all_temp_expiry allName = pe at ht2
          cases pe with
          | none =>
            rcases List.mem_append.mp ht2 with h | h
            · exact Or.inl h
            · exact Or.inr (by simpa using h)
          | some e =>
            have ht3 : t ∈ (if decide (e ≤ now) = true then acc
                else acc ++ [(⟨allName, q, true⟩ : SyncTarget)]) := ht2
            by_cases hdec : decide (e ≤ now) = true
            · rw [if_pos hdec] at ht3
              exact Or.inl ht3
            · rw [if_neg hdec] at ht3
              rcases List.mem_append.mp ht3 with h | h
              · exact Or.inl h
              · exact Or.inr (by simpa using h)
        | false =>
          rw [if_neg (by simp)] at ht2
          rcases List.mem_append.mp ht2 with h | h
          · exact Or.inl h
          · exact Or.inr (by simpa using h)
      rcases happ with h | h
      · exact Or.inl h
      · right
        subst h
        exact ⟨hd, hbf⟩

theorem foldl_add_target_spec (queue_names : List String) (now : Int) (isTemp : Bool) :
    ∀ (ns : List String) (acc : List SyncTarget),
      (∀ t ∈ acc, derive_queue_name_from_all_blob t.blob_name = some t.queue_name
        ∧ binSearch queue_names t.queue_name = false) →
      ∀ t ∈ ns.foldl (fun a n => add_target queue_names now a n isTemp) acc,
        derive_queue_name_from_all_blob t.blob_name = some t.queue_name
        ∧ binSearch queue_names t.queue_name = false := by
  intro ns
  induction ns with
  | nil => intro acc hacc t ht; exact hacc t ht
  | cons n rest ih =>
    intro acc hacc t ht
    rw [List.foldl_cons] at ht
    refine ih (add_target queue_names now acc n isTemp) ?_ t ht
    intro t' ht'
    rcases add_target_spec queue_names now acc n isTemp t' ht' with h | h
    · exact hacc t' h
    · exact h

theorem build_sync_targets_spec (queue_names allT allP : List String) (now : Int)
    (t : SyncTarget) (ht : t ∈ build_sync_targets queue_names allT allP now) :
    derive_queue_name_from_all_blob t.blob_name = some t.queue_name
    ∧ binSearch queue_names t.queue_name = false := by
  rw [build_sync_targets] at ht
  refine foldl_add_target_spec queue_names now false allP _ ?_ t ht
  intro t' ht'
  exact foldl_add_target_spec queue_names now true allT []
    (fun t0 h0 => absurd h0 (List.not_mem_nil t0)) t' ht'

/-- C9: during cloud reconciliation, an archive entry whose queue-relative
name (derived by prefix substitution) is present in the sorted
already-queued set built from the two pending-queue listings is skipped:
no download is ever attempted for it, and no SD write is ever attempted
under its queue-relative name. -/
theorem c9_reconciliation_skip (env : AzureEnv) (sas : String) (fs : Fs)
    (rawQT rawQP rawAT rawAP : List String) (e q : String)
    (hs : sas ≠ "") (hw : env.wifiConnected = true) (hp : env.sasParseOk = true)
    (ht : is_time_valid env.now = true)
    (hqt : env.listQueueTemp = some rawQT) (hqp : env.listQueuePerm = some rawQP)
    (hat : env.listAllTemp = some rawAT) (hap : env.listAllPerm = some rawAP)
    (hder : derive_queue_name_from_all_blob e = some q)
    (hqueued : q ∈ rawQT.filter (fun n => ends_with_str n ".g4")
      ∨ q ∈ rawQP.filter (fun n => ends_with_str n ".g4")) :
    e ∉ (handle_sync_from_azure env sas fs).downloads
    ∧ q ∉ (handle_sync_from_azure env sas fs).writes := by
  have hdl : (handle_sync_from_azure env sas fs).downloads
      = ((build_sync_targets
            (sort_names (sort_names (rawQT.filter (fun n => ends_with_str n ".g4"))
              ++ sort_names (rawQP.filter (fun n => ends_with_str n ".g4"))))
            (sort_names (rawAT.filter (fun n => ends_with_str n ".g4")))
            (sort_names (rawAP.filter (fun n => ends_with_str n ".g4")))
            env.now).foldl (download_and_write env)
          ⟨delete_all_g4_files fs, 0, 0, [], [], []⟩).downloads := by
    rw [handle_sync_from_azure, if_neg hs]
    simp [hw, hp, ht, hqt, hqp, hat, hap, list_all_g4_blobs]
  have hwr : (handle_sync_from_azure env sas fs).writes
      = ((build_sync_targets
            (sort_names (sort_names (rawQT.filter (fun n => ends_with_str n ".g4"))
              ++ sort_names (rawQP.filter (fun n => ends_with_str n ".g4"))))
            (sort_names (rawAT.filter (fun n => ends_with_str n ".g4")))
            (sort_names (rawAP.filter (fun n => ends_with_str n ".g4")))
            env.now).foldl (download_and_write env)
          ⟨delete_all_g4_files fs, 0, 0, [], [], []⟩).writes := by
    rw [handle_sync_from_azure, if_neg hs]
    simp [hw, hp, ht, hqt, hqp, hat, hap, list_all_g4_blobs]
  have hqmem : q ∈ sort_names (sort_names (rawQT.filter (fun n => ends_with_str n ".g4"))
      ++ sort_names (rawQP.filter (fun n => ends_with_str n ".g4"))) := by
    apply mem_sort_names.mpr
    apply List.mem_append.mpr
    rcases hqueued with h | h
    · exact Or.inl (mem_sort_names.mpr h)
    · exact Or.inr (mem_sort_names.mpr h)
  have hbin : binSearch (sort_names (sort_names (rawQT.filter (fun n => ends_with_str n ".g4"))
      ++ sort_names (rawQP.filter (fun n => ends_with_str n ".g4")))) q = true :=
    binSearch_complete (sort_names_sorted _) hqmem
  constructor
  · rw [hdl, sync_fold_downloads]
    intro hmem
    rcases List.mem_append.mp hmem with h | h
    · cases h
    · obtain ⟨t, htm, hbe⟩ := List.mem_map.mp h
      obtain ⟨hdert, hbs⟩ := build_sync_targets_spec _ _ _ _ t htm
      rw [hbe] at hdert
      have hqEq : q = t.queue_name :=
        Option.some.inj (hder.symm.trans hdert)
      rw [← hqEq] at hbs
      rw [hbin] at hbs
      cases hbs
  · rw [hwr]
    intro hmem
    rcases sync_fold_writes env _ _ q hmem with h | h
    · cases h
    · obtain ⟨t, htm, hqEq⟩ := h
      obtain ⟨_, hbs⟩ := build_sync_targets_spec _ _ _ _ t htm
      rw [← hqEq] at hbs
      rw [hbin] at hbs
      cases hbs

/-- Witness for C9: the archive entry `all/temporary/t.g4` whose derived
queue name `queue-temporary/t.g4` is already pending is neither
downloaded nor written. -/
theorem c9_reconciliation_skip_witness :
    "all/temporary/t.g4" ∉ (handle_sync_from_azure
        ⟨true, true, some ["queue-temporary/t.g4"], some [],
          some ["all/temporary/t.g4"], some [], 1700000000,
          fun _ => some [5], fun _ => ⟨true, true, true, 9, true⟩⟩
        "https://sas" []).downloads
    ∧ "queue-temporary/t.g4" ∉ (handle_sync_from_azure
        ⟨true, true, some ["queue-temporary/t.g4"], some [],
          some ["all/temporary/t.g4"], some [], 1700000000,
          fun _ => some [5], fun _ => ⟨true, true, true, 9, true⟩⟩
        "https://sas" []).writes :=
  c9_reconciliation_skip
    ⟨true, true, some ["queue-temporary/t.g4"], some [],
      some ["all/temporary/t.g4"], some [], 1700000000,
      fun _ => some [5], fun _ => ⟨true, true, true, 9, true⟩⟩
    "https://sas" [] ["queue-temporary/t.g4"] [] ["all/temporary/t.g4"] []
    "all/temporary/t.g4" "queue-temporary/t.g4"
    (by decide) rfl rfl (by decide) rfl rfl rfl rfl (by decide) (Or.inl (by decide))
